import Mathlib

/-!
Verification of the content-segmentation and story-assembly engine
(`src/lib/story-generator.ts`).

The TypeScript source is shallowly embedded below.  JavaScript strings are
modelled as Lean `String` (operated on through their `List Char` data), the
regular expressions of the source are modelled by hand-written scanners with
the same matching semantics, JavaScript numbers used as slide durations are
modelled as `ℚ`, and the two impure ingredients of the source — the
`Math.random()` animation pick and the DOM-based `escapeHTML` — are made
explicit parameters (`animPick`, `esc`) of the corresponding functions.
-/

/-- JS `\s` / `trim` whitespace, restricted to the ASCII whitespace that the
source's content can contain. -/
def ws (c : Char) : Bool := c = ' ' || c = '\t' || c = '\n' || c = '\r'

/-- JS `\w` word character (used for the `\b` word boundaries). -/
def wordChar (c : Char) : Bool := c.isAlpha || c.isDigit || c = '_'

/-- Models `startsWithL needle hay`: `hay` starts with `needle`. -/
def startsWithL : List Char → List Char → Bool
  | [], _ => true
  | _ :: _, [] => false
  | a :: as, b :: bs => a == b && startsWithL as bs

/-- Case-insensitive `startsWithL` (for regexes with the `i` flag). -/
def startsWithCIL : List Char → List Char → Bool
  | [], _ => true
  | _ :: _, [] => false
  | a :: as, b :: bs => a.toLower == b.toLower && startsWithCIL as bs

/-- Models `containsL hay needle`: JS `String.prototype.includes`. -/
def containsL : List Char → List Char → Bool
  | [], n => n.isEmpty
  | c :: cs, n => startsWithL n (c :: cs) || containsL cs n

/-- JS `hay.includes(needle)`. -/
def containsStr (hay needle : String) : Bool := containsL hay.data needle.data

/-- JS `String.prototype.trim` on character lists. -/
def wtrim (l : List Char) : List Char :=
  ((l.dropWhile ws).reverse.dropWhile ws).reverse

/-- JS `s.trim()`. -/
def strTrim (s : String) : String := String.mk (wtrim s.data)

/-- Maximal runs of non-whitespace characters (the non-empty tokens of a JS
`split(/\s+/)`), written with an accumulator so that it is structurally
recursive. -/
def wordsAux : List Char → List Char → List (List Char)
  | [], acc => if acc.isEmpty then [] else [acc.reverse]
  | c :: cs, acc =>
    if ws c then
      (if acc.isEmpty then wordsAux cs [] else acc.reverse :: wordsAux cs [])
    else wordsAux cs (c :: acc)

/-- JS `s.trim().split(/\s+/).length`, the word count used throughout the
source.  On a whitespace-only string JS returns `[""]`, hence length 1. -/
def jsWordsLen (s : String) : Nat :=
  if wtrim s.data = [] then 1 else (wordsAux s.data []).length

/-- JS `list.slice(0, e)` (negative `e` counts from the end). -/
def jsSliceEnd {α : Type} (l : List α) (e : Int) : List α :=
  if e < 0 then l.take ((l.length : Int) + e).toNat else l.take e.toNat

/-- JS `a || b` on optional strings (`""` and `undefined` are falsy). -/
def jsOr (a b : Option String) : Option String :=
  match a with
  | some s => if s = "" then b else some s
  | none => b

/-- JS `a || b` on strings (`""` is falsy). -/
def jsOrStr (a b : String) : String := if a = "" then b else a

/-- Global literal replace, JS `s.replace(/lit/g, rep)` for a literal
pattern; fueled so that it is structurally recursive (fuel is always called
with at least the length of the list). -/
def replaceLitAux (pat rep : List Char) : Nat → List Char → List Char
  | 0, cs => cs
  | _ + 1, [] => []
  | f + 1, c :: cs =>
    if startsWithL pat (c :: cs) && !pat.isEmpty then
      rep ++ replaceLitAux pat rep f ((c :: cs).drop pat.length)
    else c :: replaceLitAux pat rep f cs

/-- JS `s.replace(/lit/g, rep)` for a literal pattern `lit`. -/
def replaceLit (s pat rep : String) : String :=
  String.mk (replaceLitAux pat.data rep.data (s.data.length + 1) s.data)

/-- First-occurrence-only literal replace, JS `s.replace("lit", rep)`. -/
def replaceFirstAux (pat rep : List Char) : Nat → List Char → List Char
  | 0, cs => cs
  | _ + 1, [] => []
  | f + 1, c :: cs =>
    if startsWithL pat (c :: cs) && !pat.isEmpty then
      rep ++ (c :: cs).drop pat.length
    else c :: replaceFirstAux pat rep f cs

/-- JS `s.replace(pat, rep)` with a string (first occurrence only) pattern. -/
def replaceFirst (s pat rep : String) : String :=
  String.mk (replaceFirstAux pat.data rep.data (s.data.length + 1) s.data)

/-- JS `s.split('\n')` (empty pieces kept). -/
def splitNLAux : List Char → List Char → List String
  | [], acc => [String.mk acc.reverse]
  | c :: cs, acc =>
    if c = '\n' then String.mk acc.reverse :: splitNLAux cs []
    else splitNLAux cs (c :: acc)

/-- JS `s.split('\n')`. -/
def splitNL (s : String) : List String := splitNLAux s.data []

/-- JS `s.split(/\n\s*\n/)`: a separator is a whitespace run that starts at a
newline and contains at least one further newline; the greedy match extends
to the last newline of that run.  Fueled (each step consumes at least one
character). -/
def splitParasAux : Nat → List Char → List Char → List String
  | 0, acc, _ => [String.mk acc.reverse]
  | _ + 1, acc, [] => [String.mk acc.reverse]
  | f + 1, acc, c :: rest =>
    if c = '\n' then
      let runTail := rest.takeWhile ws
      let afterRev := runTail.reverse.takeWhile (fun x => !(x = '\n'))
      if afterRev.length = runTail.length then
        splitParasAux f (c :: acc) rest
      else
        String.mk acc.reverse ::
          splitParasAux f [] (afterRev.reverse ++ rest.dropWhile ws)
    else splitParasAux f (c :: acc) rest

/-- JS `s.split(/\n\s*\n/)`. -/
def jsSplitParas (s : String) : List String :=
  splitParasAux (s.data.length + 1) [] s.data

/-- JS `s.split(/[.!?]+/)` (maximal punctuation runs as separators). -/
def splitSentAux : Nat → List Char → List Char → List String
  | 0, acc, _ => [String.mk acc.reverse]
  | _ + 1, acc, [] => [String.mk acc.reverse]
  | f + 1, acc, c :: rest =>
    if c = '.' || c = '!' || c = '?' then
      String.mk acc.reverse ::
        splitSentAux f [] (rest.dropWhile (fun x => x = '.' || x = '!' || x = '?'))
    else splitSentAux f (c :: acc) rest

/-- JS `s.split(/[.!?]+/)`. -/
def jsSplitSentences (s : String) : List String :=
  splitSentAux (s.data.length + 1) [] s.data

/-- Helper for the `<script>`/`<style>` removal regex
`/<script\b[^<]*(?:(?!<\/script>)<[^<]*)*<\/script>/gi`: starting at a `<`
inside the block, repeatedly skip `<[^<]*` groups until the closing tag is
found; `none` when the closing tag never occurs. -/
def tagBlockEnd (close : List Char) : Nat → List Char → Option (List Char)
  | 0, _ => none
  | _ + 1, [] => none
  | f + 1, c :: rest =>
    if startsWithCIL close (c :: rest) then some ((c :: rest).drop close.length)
    else tagBlockEnd close f (rest.dropWhile (fun x => !(x = '<')))

/-- Global removal of `<script ...>...</script>` (resp. `style`) blocks, the
first two `replace` calls of `cleanHTML`.  `openT` is e.g. `"<script"`, and
the `\b` of the regex requires a non-word character (or the end) after it. -/
def removeBlocksAux (openT close : List Char) : Nat → List Char → List Char
  | 0, cs => cs
  | _ + 1, [] => []
  | f + 1, c :: cs =>
    if startsWithCIL openT (c :: cs)
        && (match (c :: cs).drop openT.length with
            | [] => true
            | d :: _ => !wordChar d) then
      match tagBlockEnd close (cs.length + 1)
          (((c :: cs).drop openT.length).dropWhile (fun x => !(x = '<'))) with
      | some rest => removeBlocksAux openT close f rest
      | none => c :: removeBlocksAux openT close f cs
    else c :: removeBlocksAux openT close f cs

/-- Case-insensitive global literal replace (for `gi` regexes that are plain
literals, such as `/<\/p>/gi`). -/
def replaceLitCIAux (pat rep : List Char) : Nat → List Char → List Char
  | 0, cs => cs
  | _ + 1, [] => []
  | f + 1, c :: cs =>
    if startsWithCIL pat (c :: cs) && !pat.isEmpty then
      rep ++ replaceLitCIAux pat rep f ((c :: cs).drop pat.length)
    else c :: replaceLitCIAux pat rep f cs

/-- One match of `/<br\s*\/?>/i` at the head of the list. -/
def brMatch (cs : List Char) : Option (List Char) :=
  if startsWithCIL "<br".data cs then
    let r := (cs.drop 3).dropWhile ws
    let r2 := match r with
      | '/' :: t => t
      | _ => r
    match r2 with
    | '>' :: t => some t
    | _ => none
  else none

/-- Models `content.replace(/<br\s*\/?>/gi, '\n')`. -/
def replaceBrAux : Nat → List Char → List Char
  | 0, cs => cs
  | _ + 1, [] => []
  | f + 1, c :: cs =>
    match brMatch (c :: cs) with
    | some rest => '\n' :: replaceBrAux f rest
    | none => c :: replaceBrAux f cs

/-- One match of `/<p[^>]*>/i` at the head of the list. -/
def pOpenMatch (cs : List Char) : Option (List Char) :=
  if startsWithCIL "<p".data cs then
    match (cs.drop 2).dropWhile (fun x => !(x = '>')) with
    | '>' :: t => some t
    | _ => none
  else none

/-- Models `content.replace(/<p[^>]*>/gi, '')`. -/
def stripPOpenAux : Nat → List Char → List Char
  | 0, cs => cs
  | _ + 1, [] => []
  | f + 1, c :: cs =>
    match pOpenMatch (c :: cs) with
    | some rest => stripPOpenAux f rest
    | none => c :: stripPOpenAux f cs

/-- The allow-list of the tag-stripping regex
`/<(?!\/?(strong|b|em|i|h[1-6]|blockquote|img)\b)[^>]*>/gi`. -/
def allowedTagNames : List String :=
  ["strong", "b", "em", "i", "h1", "h2", "h3", "h4", "h5", "h6", "blockquote", "img"]

/-- Does the negative lookahead fail (i.e. is the tag kept)?  `cs` is the
text directly after the `<`. -/
def allowedTag (cs : List Char) : Bool :=
  let r := match cs with
    | '/' :: t => t
    | _ => cs
  allowedTagNames.any fun n =>
    startsWithCIL n.data r &&
      (match r.drop n.data.length with
        | [] => true
        | d :: _ => !wordChar d)

/-- Global removal of all tags not on the allow-list. -/
def stripTagsAux : Nat → List Char → List Char
  | 0, cs => cs
  | _ + 1, [] => []
  | f + 1, c :: cs =>
    if c = '<' && !allowedTag cs then
      match cs.dropWhile (fun x => !(x = '>')) with
      | '>' :: t => stripTagsAux f t
      | _ => c :: stripTagsAux f cs
    else c :: stripTagsAux f cs

/-- Models `content.replace(/\n\s*\n\s*\n/g, '\n\n')`: a whitespace run starting at
a newline and containing at least three newlines is replaced, up to its last
newline, by a blank line. -/
def collapseNLAux : Nat → List Char → List Char
  | 0, cs => cs
  | _ + 1, [] => []
  | f + 1, c :: cs =>
    if c = '\n' then
      let runTail := cs.takeWhile ws
      if 3 ≤ 1 + runTail.count '\n' then
        let afterRev := runTail.reverse.takeWhile (fun x => !(x = '\n'))
        '\n' :: '\n' :: collapseNLAux f (afterRev.reverse ++ cs.dropWhile ws)
      else c :: collapseNLAux f cs
    else c :: collapseNLAux f cs

/-- Models `WebStoryGenerator.cleanHTML`, the ContentSanitizer: the exact sequence
of `replace` calls of the source. -/
def cleanHTML (html : String) : String :=
  let c1 := removeBlocksAux "<script".data "</script>".data (html.data.length + 1) html.data
  let c2 := removeBlocksAux "<style".data "</style>".data (c1.length + 1) c1
  let s3 := replaceLit (String.mk c2) "&nbsp;" " "
  let s4 := replaceLit s3 "&amp;" "&"
  let s5 := replaceLit s4 "&lt;" "<"
  let s6 := replaceLit s5 "&gt;" ">"
  let s7 := replaceLit s6 "&quot;" "\""
  let s8 := replaceLit s7 "&#39;" "\x27"
  let c9 := replaceBrAux (s8.data.length + 1) s8.data
  let c10 := replaceLitCIAux "</p>".data "\n\n".data (c9.length + 1) c9
  let c11 := stripPOpenAux (c10.length + 1) c10
  let c12 := stripTagsAux (c11.length + 1) c11
  let c13 := collapseNLAux (c12.length + 1) c12
  strTrim (String.mk c13)

/-- Models `WebStoryGenerator.isHeading`:
`/^<h[1-6]|^#{1,6}\s/.test(text.trim())`. -/
def isHeading (text : String) : Bool :=
  let t := wtrim text.data
  (match t with
    | '<' :: 'h' :: d :: _ => '1' ≤ d && d ≤ '6'
    | _ => false) ||
  (let hs := t.takeWhile (fun x => x = '#')
   1 ≤ hs.length && hs.length ≤ 6 &&
     (match t.drop hs.length with
       | d :: _ => ws d
       | [] => false))

/-- Models `WebStoryGenerator.isQuote`:
`/^<blockquote|^>/.test(text.trim()) || text.includes('<blockquote')`. -/
def isQuote (text : String) : Bool :=
  let t := wtrim text.data
  startsWithL "<blockquote".data t ||
    (match t with
      | '>' :: _ => true
      | _ => false) ||
    containsL text.data "<blockquote".data

/-- Models `WebStoryGenerator.hasImageInParagraph`: `/<img[^>]*src/i.test(text)` —
somewhere in the text, `<img` followed by non-`>` characters and `src`. -/
def hasImageAt : Nat → List Char → Bool
  | 0, _ => false
  | _ + 1, [] => false
  | f + 1, c :: cs =>
    (startsWithCIL "<img".data (c :: cs) &&
      (let r := (c :: cs).drop 4
       let body := r.takeWhile (fun x => !(x = '>'))
       (List.range (body.length + 1)).any fun i => startsWithCIL "src".data (body.drop i))) ||
    hasImageAt f cs

/-- Models `/<img[^>]*src/i.test(text)`. -/
def hasImageInParagraph (text : String) : Bool :=
  hasImageAt (text.data.length + 1) text.data

/-- One match of `/<\/?h[1-6][^>]*>/i` at the head of the list. -/
def hTagMatch (cs : List Char) : Option (List Char) :=
  match cs with
  | '<' :: rest =>
    let r := match rest with
      | '/' :: t => t
      | _ => rest
    match r with
    | h :: d :: t =>
      if h.toLower == 'h' && '1' ≤ d && d ≤ '6' then
        match t.dropWhile (fun x => !(x = '>')) with
        | '>' :: u => some u
        | _ => none
      else none
    | _ => none
  | _ => none

/-- Models `text.replace(/<\/?h[1-6][^>]*>/gi, '')`. -/
def removeHTagsAux : Nat → List Char → List Char
  | 0, cs => cs
  | _ + 1, [] => []
  | f + 1, c :: cs =>
    match hTagMatch (c :: cs) with
    | some rest => removeHTagsAux f rest
    | none => c :: removeHTagsAux f cs

/-- Models `l.replace(/^#{1,6}\s/, '')`: remove a leading run of one to six `#`
followed by one whitespace character. -/
def stripHashPrefixL (l : List Char) : List Char :=
  let hs := l.takeWhile (fun x => x = '#')
  if 1 ≤ hs.length && hs.length ≤ 6 &&
      (match l.drop hs.length with
        | d :: _ => ws d
        | [] => false) then
    l.drop (hs.length + 1)
  else l

/-- Models `WebStoryGenerator.cleanHeadingText`. -/
def cleanHeadingText (text : String) : String :=
  strTrim (String.mk (stripHashPrefixL (removeHTagsAux (text.data.length + 1) text.data)))

/-- One match of `/<\/?blockquote[^>]*>/i` at the head of the list. -/
def bqTagMatch (cs : List Char) : Option (List Char) :=
  match cs with
  | '<' :: rest =>
    let r := match rest with
      | '/' :: t => t
      | _ => rest
    if startsWithCIL "blockquote".data r then
      match (r.drop 10).dropWhile (fun x => !(x = '>')) with
      | '>' :: u => some u
      | _ => none
    else none
  | _ => none

/-- Models `text.replace(/<\/?blockquote[^>]*>/gi, '')`. -/
def removeBqTagsAux : Nat → List Char → List Char
  | 0, cs => cs
  | _ + 1, [] => []
  | f + 1, c :: cs =>
    match bqTagMatch (c :: cs) with
    | some rest => removeBqTagsAux f rest
    | none => c :: removeBqTagsAux f cs

/-- Models `l.replace(/^>\s?/, '')`. -/
def stripGtPrefixL (l : List Char) : List Char :=
  match l with
  | '>' :: t =>
    match t with
    | w :: t2 => if ws w then t2 else t
    | [] => []
  | _ => l

/-- Models `WebStoryGenerator.cleanQuoteText`:
`text.replace(/<\/?blockquote[^>]*>/gi, '').replace(/^>\s?/, '').trim()`. -/
def cleanQuoteText (text : String) : String :=
  strTrim (String.mk (stripGtPrefixL (removeBqTagsAux (text.data.length + 1) text.data)))

/-- Models `WebStoryGenerator.extractTitle`. -/
def extractTitle (text : String) : Option String :=
  let lines := (splitNL text).filter (fun l => !(strTrim l == ""))
  match lines with
  | [] => none
  | l0 :: rest =>
    let firstLine := strTrim l0
    match rest with
    | l1 :: _ =>
      if firstLine.data.length < 100 && firstLine.data.length < l1.data.length then
        some firstLine
      else none
    | [] => none

/-- Parse `["']([^"']+)["']` followed by `[^>]*>`; returns the capture and
the remainder after the `>`. -/
def parseQuotedAttr (cs : List Char) : Option (String × List Char) :=
  match cs with
  | q :: rest =>
    if q = '"' || q = '\x27' then
      let cap := rest.takeWhile (fun x => !(x = '"') && !(x = '\x27'))
      if cap.isEmpty then none
      else
        match rest.drop cap.length with
        | q2 :: rest2 =>
          if q2 = '"' || q2 = '\x27' then
            match rest2.dropWhile (fun x => !(x = '>')) with
            | '>' :: rest3 => some (String.mk cap, rest3)
            | _ => none
          else none
        | [] => none
    else none
  | [] => none

/-- Backtracking search for `attr` (e.g. `src=`) preceded by `[^>]*`: the
greedy `[^>]*` makes the regex engine try the rightmost candidate first,
descending to `minStart` (1 for `[^>]+`, 0 for `[^>]*`).  `i` is the
current length of the `[^>]*` prefix being tried. -/
def imgAttrTryDown (attr r : List Char) (minStart : Nat) : Nat → Option (String × List Char)
  | 0 =>
    if 0 < minStart then none
    else if startsWithCIL attr r then parseQuotedAttr (r.drop attr.length) else none
  | i + 1 =>
    if i + 1 < minStart then none
    else
      match (if startsWithCIL attr (r.drop (i + 1)) then
          parseQuotedAttr ((r.drop (i + 1)).drop attr.length) else none) with
      | some res => some res
      | none => imgAttrTryDown attr r minStart i

/-- One match of `/<img[^>]( * or + )attr=["']([^"']+)["'][^>]*>/i` at the
head of the list; `needPlus` selects `[^>]+` (the global `extractImages`
regex) over `[^>]*` (the per-paragraph ones).  The greedy `[^>]*` prefix
means the last parsable `attr=` inside the tag wins. -/
def imgTagMatch (needPlus : Bool) (attr : List Char) (cs : List Char) :
    Option (String × List Char) :=
  if startsWithCIL "<img".data cs then
    let r := cs.drop 4
    let body := r.takeWhile (fun x => !(x = '>'))
    imgAttrTryDown attr r (if needPlus then 1 else 0) body.length
  else none

/-- First match of the image regex anywhere in the text. -/
def imgFirstAux (needPlus : Bool) (attr : List Char) : Nat → List Char → Option (String × List Char)
  | 0, _ => none
  | _ + 1, [] => none
  | f + 1, c :: cs =>
    match imgTagMatch needPlus attr (c :: cs) with
    | some res => some res
    | none => imgFirstAux needPlus attr f cs

/-- Models `WebStoryGenerator.extractImageFromParagraph`:
`text.match(/<img[^>]*src=["']([^"']+)["'][^>]*>/i)`. -/
def extractImageFromParagraph (text : String) : Option String :=
  (imgFirstAux false "src=".data (text.data.length + 1) text.data).map Prod.fst

/-- Models `WebStoryGenerator.extractImageAlt`:
`text.match(/<img[^>]*alt=["']([^"']+)["'][^>]*>/i)`. -/
def extractImageAlt (text : String) : Option String :=
  (imgFirstAux false "alt=".data (text.data.length + 1) text.data).map Prod.fst

/-- All matches of `/<img[^>]+src=["']([^"']+)["'][^>]*>/gi`. -/
def imgAllAux : Nat → List Char → List String
  | 0, _ => []
  | _ + 1, [] => []
  | f + 1, c :: cs =>
    match imgTagMatch true "src=".data (c :: cs) with
    | some (url, rest) => url :: imgAllAux f rest
    | none => imgAllAux f cs

/-- Models `WebStoryGenerator.extractImages`. -/
def extractImages (htmlContent : String) : List String :=
  imgAllAux (htmlContent.data.length + 1) htmlContent.data

/-- The transient content chunk of `segmentContent` (spec `ContentChunk`). -/
structure Chunk where
  title : Option String
  text : String
  image : Option String
  imageAlt : Option String
  hasImage : Bool
  isQuote : Bool
deriving DecidableEq

/-- The mutable state of the `segmentContent` loop: emitted chunks, the open
buffer `currentChunk` and the running `chunkWordCount`. -/
structure SegState where
  chunks : List Chunk
  cur : String
  cnt : Nat
deriving DecidableEq

/-- Models `segmentContent` loop, statement 1: "If it is a heading and we have
content, finish current chunk". -/
def segHeadingFlush (p : String) (st : SegState) : SegState :=
  if isHeading p && !(st.cur == "") then
    SegState.mk (st.chunks ++ [Chunk.mk none (strTrim st.cur) none none false false]) "" 0
  else st

/-- Models `segmentContent` loop, statement 2: "If adding this paragraph would
exceed word limit, finish current chunk" (the word budget
`maxWordsPerSlide` is the source constant 50). -/
def segBudgetFlush (p : String) (st : SegState) : SegState :=
  if decide (50 < st.cnt + jsWordsLen p) && !(st.cur == "") then
    SegState.mk (st.chunks ++
      [Chunk.mk (if isHeading p then none else extractTitle st.cur) (strTrim st.cur)
        none none false false]) "" 0
  else st

/-- Models `segmentContent` loop, statement 3: "Add paragraph to current chunk". -/
def segAppend (p : String) (st : SegState) : SegState :=
  SegState.mk st.chunks (if st.cur == "" then p else st.cur ++ "\n\n" ++ p)
    (st.cnt + jsWordsLen p)

/-- Models `segmentContent` loop, statement 4: "If this is a quote or has an
image, finish the chunk immediately". -/
def segQuoteImage (p : String) (st : SegState) : SegState :=
  if isQuote p || hasImageInParagraph p then
    SegState.mk (st.chunks ++
      [Chunk.mk (if isHeading p then some (cleanHeadingText p) else none)
        (if isQuote p then cleanQuoteText p else strTrim st.cur)
        (if hasImageInParagraph p then extractImageFromParagraph p else none)
        (if hasImageInParagraph p then extractImageAlt p else none)
        (hasImageInParagraph p) (isQuote p)]) "" 0
  else st

/-- One iteration of the `for (const paragraph of paragraphs)` loop of
`WebStoryGenerator.segmentContent`: the four statements in source order. -/
def segIter (p : String) (st : SegState) : SegState :=
  segQuoteImage p (segAppend p (segBudgetFlush p (segHeadingFlush p st)))

/-- The paragraph loop with its `break` once `chunks.length >= maxChunks`. -/
def segLoop (mc : Int) : List String → SegState → SegState
  | [], st => st
  | p :: ps, st =>
    let st2 := segIter p st
    if mc ≤ (st2.chunks.length : Int) then st2 else segLoop mc ps st2

/-- Models `segmentContent` after the paragraph split: the loop, the trailing-buffer
flush, and the final `slice(0, maxChunks)`. -/
def segmentParagraphs (paras : List String) (mc : Int) : List Chunk :=
  let st := segLoop mc paras (SegState.mk [] "" 0)
  let chunks :=
    if !(strTrim st.cur == "") && decide ((st.chunks.length : Int) < mc) then
      st.chunks ++ [Chunk.mk none (strTrim st.cur) none none false false]
    else st.chunks
  jsSliceEnd chunks mc

/-- The paragraph list of `segmentContent`:
`cleanHTML(content).split(/\n\s*\n/).filter(p => p.trim().length > 0)`. -/
def paragraphsOf (content : String) : List String :=
  (jsSplitParas (cleanHTML content)).filter (fun p => !(strTrim p == ""))

/-- Models `WebStoryGenerator.segmentContent`. -/
def segmentContent (htmlContent : String) (maxChunks : Int) : List Chunk :=
  segmentParagraphs (paragraphsOf htmlContent) maxChunks

/-- Models `StorySlide['type']`. -/
inductive SlideType where
  | title
  | content
  | image
  | quote
  | cta
deriving DecidableEq

/-- Models `StorySlide['layout']`. -/
inductive SlideLayout where
  | fill
  | fixed
  | intrinsic
  | responsive
deriving DecidableEq

/-- Models `StorySlide['style']['textAlign']`. -/
inductive TextAlign where
  | left
  | center
  | right
deriving DecidableEq

/-- Models `StorySlide['content']`. -/
structure SlideContent where
  title : Option String
  subtitle : Option String
  text : Option String
  image : Option String
  imageAlt : Option String
  quote : Option String
  author : Option String
  buttonText : Option String
  buttonUrl : Option String
deriving DecidableEq

/-- Models `StorySlide['style']` (`duration` is in seconds, modelled as `ℚ`). -/
structure SlideStyle where
  backgroundColor : String
  textColor : String
  accentColor : Option String
  fontFamily : String
  animation : String
  duration : ℚ
  textAlign : Option TextAlign
deriving DecidableEq

/-- Models `StorySlide`. -/
structure StorySlide where
  id : String
  type : SlideType
  content : SlideContent
  style : SlideStyle
  layout : Option SlideLayout
deriving DecidableEq

/-- Models `StoryTemplate['config']`. -/
structure TemplateConfig where
  backgroundColor : String
  textColor : String
  accentColor : String
  fontFamily : String
  animations : List String
deriving DecidableEq

/-- Models `StoryTemplate`. -/
structure StoryTemplate where
  id : String
  name : String
  category : String
  config : TemplateConfig
deriving DecidableEq

/-- Models `WordPressPostData`. -/
structure WordPressPostData where
  title : String
  content : String
  excerpt : Option String
  featuredImage : Option String
  categories : List String
  tags : List String
  author : String
deriving DecidableEq

/-- Models `Partial<StoryTemplate['config']>`, the `customizations` option. -/
structure Customizations where
  backgroundColor : Option String
  textColor : Option String
  accentColor : Option String
  fontFamily : Option String
  animations : Option (List String)
deriving DecidableEq

/-- The options of `generateStory` (the source's defaults are
`maxSlides = 10`, `includeTitle = includeCTA = true`,
`ctaText = "Read Full Article"`, `ctaUrl = "#"`). -/
structure GenerationOptions where
  maxSlides : Int
  includeTitle : Bool
  includeCTA : Bool
  ctaText : String
  ctaUrl : String
  customizations : Customizations
deriving DecidableEq

/-- Models `{ ...this.template.config, ...customizations }`. -/
def mergeConfig (c : TemplateConfig) (o : Customizations) : TemplateConfig :=
  TemplateConfig.mk (o.backgroundColor.getD c.backgroundColor)
    (o.textColor.getD c.textColor) (o.accentColor.getD c.accentColor)
    (o.fontFamily.getD c.fontFamily) (o.animations.getD c.animations)

/-- The sentence-appending loop of `generateExcerpt` (the `break` returns
the accumulator). -/
def excerptLoop (maxLength : Nat) : List String → String → String
  | [], acc => acc
  | s :: ss, acc =>
    if maxLength < (acc ++ s).data.length then acc
    else excerptLoop maxLength ss (acc ++ s ++ ". ")

/-- Models `WebStoryGenerator.generateExcerpt` (default `maxLength` 160). -/
def generateExcerpt (content : String) (maxLength : Nat) : String :=
  let cleanContent := cleanHTML content
  let sentences := (jsSplitSentences cleanContent).filter (fun s => !(strTrim s == ""))
  let excerpt := excerptLoop maxLength sentences ""
  jsOrStr (strTrim excerpt) (String.mk (cleanContent.data.take maxLength) ++ "...")

/-- Models `WebStoryGenerator.getRandomAnimation`:
`animations[Math.floor(Math.random() * animations.length)]`.  The
`Math.random()` draw is modelled by the explicit index `draw` (out-of-range
draws give the JS `undefined`, modelled as `""`). -/
def getRandomAnimation (animations : List String) (draw : Nat) : String :=
  animations.getD draw ""

/-- Models `WebStoryGenerator.getVariantColor`. -/
def getVariantColor (baseColor : String) (index : Nat) : String :=
  if containsStr baseColor "gradient" then
    let variants := [baseColor,
      replaceFirst baseColor "135deg" "45deg",
      replaceFirst baseColor "135deg" "225deg",
      replaceFirst baseColor "135deg" "315deg"]
    variants.getD (index % variants.length) baseColor
  else baseColor

/-- Models `WebStoryGenerator.calculateSlideDuration`:
`Math.min(Math.max(3 + wordCount * 0.1, 3), 8)`. -/
def calculateSlideDuration (text : String) : ℚ :=
  min (max ((3 : ℚ) + (jsWordsLen text : ℚ) * (1 / 10)) 3) 8

/-- Models `WebStoryGenerator.createTitleSlide`; `draw` is the `Math.random()`
draw of its `getRandomAnimation` call. -/
def createTitleSlide (postData : WordPressPostData) (config : TemplateConfig)
    (draw : Nat) : StorySlide :=
  StorySlide.mk "1" SlideType.title
    (SlideContent.mk (some postData.title)
      (some (match postData.excerpt with
        | some e => if e = "" then generateExcerpt postData.content 160 else e
        | none => generateExcerpt postData.content 160))
      none postData.featuredImage none none none none none)
    (SlideStyle.mk config.backgroundColor config.textColor (some config.accentColor)
      config.fontFamily (getRandomAnimation config.animations draw) 6 (some TextAlign.center))
    (some SlideLayout.fill)

/-- Models `WebStoryGenerator.createCTASlide`. -/
def createCTASlide (postData : WordPressPostData) (config : TemplateConfig)
    (ctaText ctaUrl : String) : StorySlide :=
  StorySlide.mk "cta" SlideType.cta
    (SlideContent.mk (some ("Learn More About " ++ postData.title))
      (some "Continue reading the full article for more insights")
      none none none none none (some ctaText) (some ctaUrl))
    (SlideStyle.mk (jsOrStr config.accentColor config.backgroundColor) config.textColor
      (some config.backgroundColor) config.fontFamily "zoom" 5 (some TextAlign.center))
    (some SlideLayout.fill)

/-- The body of the `contentChunks.forEach((chunk, index) => ...)` of
`createContentSlides`: builds the slide for one chunk. -/
def mkContentSlide (author : String) (images : List String) (config : TemplateConfig)
    (animPick : Nat → Nat) (index : Nat) (chunk : Chunk) : StorySlide :=
  let slideType :=
    if chunk.isQuote then SlideType.quote
    else if chunk.hasImage && decide (0 < images.length) then SlideType.image
    else SlideType.content
  StorySlide.mk (toString (index + 2)) slideType
    (SlideContent.mk chunk.title none (some chunk.text)
      (jsOr chunk.image
        (if images.length = 0 then none
         else jsOr (some (images.getD (index % images.length) "")) none))
      chunk.imageAlt
      (if chunk.isQuote then some chunk.text else none)
      (if chunk.isQuote then some author else none)
      none none)
    (SlideStyle.mk (getVariantColor config.backgroundColor index) config.textColor
      (some config.accentColor) config.fontFamily
      (getRandomAnimation config.animations (animPick (index + 1)))
      (calculateSlideDuration chunk.text)
      (some (if slideType = SlideType.quote then TextAlign.center else TextAlign.left)))
    (some (if slideType = SlideType.image then SlideLayout.fill else SlideLayout.responsive))

/-- The `forEach` of `createContentSlides` as a recursion over the chunks
(slide ids start at `index + 2`). -/
def slidesFromChunks (author : String) (images : List String) (config : TemplateConfig)
    (animPick : Nat → Nat) : Nat → List Chunk → List StorySlide
  | _, [] => []
  | index, c :: cs =>
    mkContentSlide author images config animPick index c ::
      slidesFromChunks author images config animPick (index + 1) cs

/-- Models `WebStoryGenerator.createContentSlides`. -/
def createContentSlides (postData : WordPressPostData) (config : TemplateConfig)
    (maxSlides : Int) (animPick : Nat → Nat) : List StorySlide :=
  let contentChunks := segmentContent postData.content maxSlides
  let images := extractImages postData.content
  jsSliceEnd (slidesFromChunks postData.author images config animPick 0 contentChunks) maxSlides

/-- Models `WebStoryGenerator.generateStory`.  `animPick k` is the `Math.random()`
draw used by the `k`-th `getRandomAnimation` call (0 for the title slide,
`index + 1` for the content slide at `index`). -/
def generateStory (template : StoryTemplate) (postData : WordPressPostData)
    (options : GenerationOptions) (animPick : Nat → Nat) : List StorySlide :=
  let config := mergeConfig template.config options.customizations
  (if options.includeTitle then [createTitleSlide postData config (animPick 0)] else [])
    ++ createContentSlides postData config
        (options.maxSlides - (if options.includeTitle then 1 else 0)
          - (if options.includeCTA then 1 else 0)) animPick
    ++ (if options.includeCTA then [createCTASlide postData config options.ctaText options.ctaUrl] else [])

/-- JS `o || ''` for an optional string. -/
def optStr (o : Option String) : String := o.getD ""

/-- JS truthiness of an optional string (used by the `x ? frag : ''`
conditionals of the slide templates). -/
def optTruthy (o : Option String) : Bool :=
  match o with
  | some s => !(s == "")
  | none => false

/-- Serialisation of a `textAlign` value. -/
def alignStr : TextAlign → String
  | TextAlign.left => "left"
  | TextAlign.center => "center"
  | TextAlign.right => "right"

/-- Models `slide.style.textAlign || dflt`. -/
def alignOr (o : Option TextAlign) (dflt : String) : String :=
  match o with
  | some a => alignStr a
  | none => dflt

/-- Models `WebStoryGenerator.escapeJSON`. -/
def escapeJSON (str : String) : String :=
  replaceLit (replaceLit (replaceLit str "\"" "\\\"") "\n" "\\n") "\r" "\\r"

/-- Models `WebStoryGenerator.generateTitleSlideAMP` (the DOM-based `escapeHTML`
is the parameter `esc`). -/
def generateTitleSlideAMP (esc : String → String) (slide : StorySlide) : String :=
  "\n        <div class=\"story-title-container\" style=\"text-align: "
    ++ alignOr slide.style.textAlign "center" ++ "; color: " ++ slide.style.textColor
    ++ "; font-family: " ++ slide.style.fontFamily
    ++ ";\">\n          <h1 style=\"font-size: 2.5em; margin-bottom: 0.5em; line-height: 1.2;\">\n            "
    ++ esc (optStr slide.content.title)
    ++ "\n          </h1>\n          "
    ++ (if optTruthy slide.content.subtitle then
          "\n          <p style=\"font-size: 1.2em; opacity: 0.9; line-height: 1.4;\">\n            "
            ++ esc (optStr slide.content.subtitle) ++ "\n          </p>"
        else "")
    ++ "\n        </div>"

/-- Models `WebStoryGenerator.generateContentSlideAMP`. -/
def generateContentSlideAMP (esc : String → String) (slide : StorySlide) : String :=
  "\n        <div class=\"story-content-container\" style=\"color: " ++ slide.style.textColor
    ++ "; font-family: " ++ slide.style.fontFamily ++ ";\">\n          "
    ++ (if optTruthy slide.content.title then
          "\n          <h2 style=\"font-size: 1.8em; margin-bottom: 1em; color: "
            ++ jsOrStr (optStr slide.style.accentColor) slide.style.textColor
            ++ ";\">\n            " ++ esc (optStr slide.content.title) ++ "\n          </h2>"
        else "")
    ++ "\n          <div style=\"font-size: 1.1em; line-height: 1.6; text-align: "
    ++ alignOr slide.style.textAlign "left" ++ ";\">\n            "
    ++ replaceLit (esc (optStr slide.content.text)) "\n" "<br>"
    ++ "\n          </div>\n        </div>"

/-- Models `WebStoryGenerator.generateImageSlideAMP`. -/
def generateImageSlideAMP (esc : String → String) (slide : StorySlide) : String :=
  "\n        "
    ++ (if optTruthy slide.content.image then
          "\n        <amp-img src=\"" ++ optStr slide.content.image
            ++ "\"\n                 alt=\"" ++ esc (optStr slide.content.imageAlt)
            ++ "\"\n                 layout=\"fill\"\n                 object-fit=\"cover\">\n        </amp-img>"
        else "")
    ++ "\n        <div class=\"story-image-overlay\" style=\"background: linear-gradient(transparent, rgba(0,0,0,0.7)); color: "
    ++ slide.style.textColor ++ "; font-family: " ++ slide.style.fontFamily ++ ";\">\n          "
    ++ (if optTruthy slide.content.title then
          "\n          <h2 style=\"font-size: 1.8em; margin-bottom: 0.5em;\">\n            "
            ++ esc (optStr slide.content.title) ++ "\n          </h2>"
        else "")
    ++ "\n          "
    ++ (if optTruthy slide.content.text then
          "\n          <p style=\"font-size: 1.1em; line-height: 1.5;\">\n            "
            ++ esc (optStr slide.content.text) ++ "\n          </p>"
        else "")
    ++ "\n        </div>"

/-- Models `WebStoryGenerator.generateQuoteSlideAMP`. -/
def generateQuoteSlideAMP (esc : String → String) (slide : StorySlide) : String :=
  "\n        <div class=\"story-quote-container\" style=\"text-align: center; color: "
    ++ slide.style.textColor ++ "; font-family: " ++ slide.style.fontFamily
    ++ ";\">\n          <blockquote style=\"font-size: 1.5em; line-height: 1.4; margin: 0; font-style: italic;\">\n            \""
    ++ esc (optStr (jsOr slide.content.quote slide.content.text))
    ++ "\"\n          </blockquote>\n          "
    ++ (if optTruthy slide.content.author then
          "\n          <cite style=\"display: block; margin-top: 1em; font-size: 1em; opacity: 0.8;\">\n            — "
            ++ esc (optStr slide.content.author) ++ "\n          </cite>"
        else "")
    ++ "\n        </div>"

/-- Models `WebStoryGenerator.generateCTASlideAMP`. -/
def generateCTASlideAMP (esc : String → String) (slide : StorySlide) : String :=
  "\n        <div class=\"story-cta-container\" style=\"text-align: center; color: "
    ++ slide.style.textColor ++ "; font-family: " ++ slide.style.fontFamily
    ++ ";\">\n          <h2 style=\"font-size: 2em; margin-bottom: 0.5em;\">\n            "
    ++ esc (optStr slide.content.title)
    ++ "\n          </h2>\n          "
    ++ (if optTruthy slide.content.subtitle then
          "\n          <p style=\"font-size: 1.2em; margin-bottom: 2em; opacity: 0.9;\">\n            "
            ++ esc (optStr slide.content.subtitle) ++ "\n          </p>"
        else "")
    ++ "\n          "
    ++ (if optTruthy slide.content.buttonUrl then
          "\n          <a href=\"" ++ optStr slide.content.buttonUrl
            ++ "\" \n             style=\"display: inline-block; background: "
            ++ jsOrStr (optStr slide.style.accentColor) slide.style.textColor
            ++ "; color: " ++ slide.style.backgroundColor
            ++ "; padding: 1em 2em; text-decoration: none; border-radius: 2em; font-weight: bold;\">\n            "
            ++ esc (jsOrStr (optStr slide.content.buttonText) "Learn More")
            ++ "\n          </a>"
        else "")
    ++ "\n        </div>"

/-- Models `WebStoryGenerator.generateSlideAMP` (its `index` parameter is unused
in the source body and omitted here). -/
def generateSlideAMP (esc : String → String) (slide : StorySlide) : String :=
  let slideContent :=
    match slide.type with
    | SlideType.title => generateTitleSlideAMP esc slide
    | SlideType.content => generateContentSlideAMP esc slide
    | SlideType.image => generateImageSlideAMP esc slide
    | SlideType.quote => generateQuoteSlideAMP esc slide
    | SlideType.cta => generateCTASlideAMP esc slide
  "\n    <amp-story-page id=\"" ++ ("slide-" ++ slide.id)
    ++ "\">\n      <amp-story-grid-layer template=\"fill\" style=\"background: "
    ++ slide.style.backgroundColor
    ++ ";\">\n      </amp-story-grid-layer>\n      <amp-story-grid-layer template=\"vertical\">\n        "
    ++ slideContent
    ++ "\n      </amp-story-grid-layer>\n    </amp-story-page>"

/-- The metadata argument of `generateAMPHTML`. -/
structure StoryMetadata where
  title : String
  description : String
  author : String
  publisherName : String
  publisherLogo : String
  canonicalUrl : String
deriving DecidableEq

/-- JS `list.join(sep)`. -/
def joinWith (sep : String) : List String → String
  | [] => ""
  | [s] => s
  | s :: rest => s ++ sep ++ joinWith sep rest

/-- Models `slides[0]?.content.image || metadata.publisherLogo`. -/
def posterPortraitSrc (slides : List StorySlide) (metadata : StoryMetadata) : String :=
  match slides with
  | [] => metadata.publisherLogo
  | s :: _ => jsOrStr (optStr s.content.image) metadata.publisherLogo

/-- The document template literal of `generateAMPHTML` (everything after its
leading newline); `nowISO` models `new Date().toISOString()`. -/
def ampStoryDoc (esc : String → String) (nowISO : String) (slides : List StorySlide)
    (metadata : StoryMetadata) : String :=
  "<!doctype html>\n<html ⚡ lang=\"en\">\n<head>\n  <meta charset=\"utf-8\">\n  <title>"
  ++ esc metadata.title
  ++ "</title>\n  <link rel=\"canonical\" href=\""
  ++ metadata.canonicalUrl
  ++ "\">\n  <meta name=\"viewport\" content=\"width=device-width,minimum-scale=1,initial-scale=1\">\n  <meta name=\"description\" content=\""
  ++ esc metadata.description
  ++ "\">\n  \n  <!-- Web Stories specific meta -->\n  <meta property=\"og:type\" content=\"article\">\n  <meta property=\"og:title\" content=\""
  ++ esc metadata.title
  ++ "\">\n  <meta property=\"og:description\" content=\""
  ++ esc metadata.description
  ++ "\">\n  \n  <!-- AMP boilerplate -->\n  <style amp-boilerplate>body\x7b-webkit-animation:-amp-start 8s steps(1,end) 0s 1 normal both;-moz-animation:-amp-start 8s steps(1,end) 0s 1 normal both;-ms-animation:-amp-start 8s steps(1,end) 0s 1 normal both;animation:-amp-start 8s steps(1,end) 0s 1 normal both\x7d@-webkit-keyframes -amp-start\x7bfrom\x7bvisibility:hidden\x7dto\x7bvisibility:visible\x7d\x7d@-moz-keyframes -amp-start\x7bfrom\x7bvisibility:hidden\x7dto\x7bvisibility:visible\x7d\x7d@-ms-keyframes -amp-start\x7bfrom\x7bvisibility:hidden\x7dto\x7bvisibility:visible\x7d\x7d@-o-keyframes -amp-start\x7bfrom\x7bvisibility:hidden\x7dto\x7bvisibility:visible\x7d\x7d@keyframes -amp-start\x7bfrom\x7bvisibility:hidden\x7dto\x7bvisibility:visible\x7d\x7d</style><noscript><style amp-boilerplate>body\x7b-webkit-animation:none;-moz-animation:none;-ms-animation:none;animation:none\x7d</style></noscript>\n  \n  <!-- AMP Web Story -->\n  <script async src=\"https://cdn.ampproject.org/v0.js\"></script>\n  <script async custom-element=\"amp-story\" src=\"https://cdn.ampproject.org/v0/amp-story-1.0.js\"></script>\n  <script async custom-element=\"amp-story-auto-ads\" src=\"https://cdn.ampproject.org/v0/amp-story-auto-ads-0.1.js\"></script>\n  \n  <!-- JSON-LD structured data -->\n  <script type=\"application/ld+json\">\n  \x7b\n    \"@context\": \"http://schema.org\",\n    \"@type\": \"Article\",\n    \"headline\": \""
  ++ escapeJSON metadata.title
  ++ "\",\n    \"description\": \""
  ++ escapeJSON metadata.description
  ++ "\",\n    \"author\": \x7b\n      \"@type\": \"Person\",\n      \"name\": \""
  ++ escapeJSON metadata.author
  ++ "\"\n    \x7d,\n    \"publisher\": \x7b\n      \"@type\": \"Organization\",\n      \"name\": \""
  ++ escapeJSON metadata.publisherName
  ++ "\",\n      \"logo\": \x7b\n        \"@type\": \"ImageObject\",\n        \"url\": \""
  ++ metadata.publisherLogo
  ++ "\"\n      \x7d\n    \x7d,\n    \"url\": \""
  ++ metadata.canonicalUrl
  ++ "\",\n    \"datePublished\": \""
  ++ nowISO
  ++ "\"\n  \x7d\n  </script>\n</head>\n\n<body>\n  <amp-story standalone\n            title=\""
  ++ esc metadata.title
  ++ "\"\n            publisher=\""
  ++ esc metadata.publisherName
  ++ "\"\n            publisher-logo-src=\""
  ++ metadata.publisherLogo
  ++ "\"\n            poster-portrait-src=\""
  ++ posterPortraitSrc slides metadata
  ++ "\">\n    \n    "
  ++ joinWith "\n" (slides.map (generateSlideAMP esc))
  ++ "\n    \n    <!-- Auto ads (optional) -->\n    <amp-story-auto-ads>\n      <script type=\"application/json\">\n      \x7b\n        \"ad-attributes\": \x7b\n          \"type\": \"doubleclick\",\n          \"data-slot\": \"/30497360/a4a/amp_story_dfp_example\"\n        \x7d\n      \x7d\n      </script>\n    </amp-story-auto-ads>\n  </amp-story>\n</body>\n</html>"

/-- Models `WebStoryGenerator.generateAMPHTML`: the document template (which starts
with a newline in the source) followed by the source's `.trim()`. -/
def generateAMPHTML (esc : String → String) (nowISO : String) (slides : List StorySlide)
    (metadata : StoryMetadata) : String :=
  strTrim ("\n" ++ ampStoryDoc esc nowISO slides metadata)

/-- The result record of `validateAMPHTML`. -/
structure ValidationResult where
  isValid : Bool
  errors : List String
  warnings : List String
deriving DecidableEq

/-- Models `validateAMPHTML`. -/
def validateAMPHTML (ampHTML : String) : ValidationResult :=
  let errors :=
    (if !containsStr ampHTML "⚡" && !containsStr ampHTML "amp" then
      ["Missing AMP attribute in html tag"] else [])
    ++ (if !containsStr ampHTML "amp-story" then ["Missing amp-story component"] else [])
    ++ (if !containsStr ampHTML "viewport" then ["Missing viewport meta tag"] else [])
  let warnings :=
    (if !containsStr ampHTML "application/ld+json" then
      ["Missing structured data (JSON-LD)"] else [])
    ++ (if !containsStr ampHTML "canonical" then ["Missing canonical URL"] else [])
  ValidationResult.mk (errors.length == 0) errors warnings

/-- The word-budget status of an emitted chunk: a chunk is a quote chunk,
or fits the 50-word budget, or is a single oversized paragraph. -/
def chunkBudgetOK (paras : List String) (c : Chunk) : Prop :=
  c.isQuote = true ∨ jsWordsLen c.text ≤ 50 ∨
    ∃ p, p ∈ paras ∧ c.text = strTrim p ∧ 50 < jsWordsLen p

/-- Invariant of the open buffer of the segmentation loop. -/
def bufOK (paras : List String) (cur : String) (cnt : Nat) : Prop :=
  (cur = "" ∧ cnt = 0) ∨
    (strTrim cur ≠ "" ∧ jsWordsLen cur = cnt ∧ (cnt ≤ 50 ∨ ∃ p, p ∈ paras ∧ cur = p))

/-- The buffer contents built by successive loop appends starting from
`cur`. -/
def appendPars (cur : String) : List String → String
  | [] => cur
  | p :: ps => appendPars (cur ++ "\n\n" ++ p) ps

/-- Paragraphs concatenated with blank-line separators, in order. -/
def joinPars : List String → String
  | [] => ""
  | [p] => p
  | p :: ps => p ++ "\n\n" ++ joinPars ps

/-- A fixed demo template used by the concrete witnesses below. -/
def demoTemplate : StoryTemplate :=
  StoryTemplate.mk "t1" "Demo" "general"
    (TemplateConfig.mk "#ffffff" "#000000" "#ff0000" "serif" ["fade"])

/-- Empty customizations. -/
def noCustom : Customizations := Customizations.mk none none none none none

/-- The post of the C1 counterexample: ten one-word paragraphs. -/
def claim1CexPost : WordPressPostData :=
  WordPressPostData.mk "T" "a\n\nb\n\nc\n\nd\n\ne\n\nf\n\ng\n\nh\n\ni\n\nj"
    (some "x") none [] [] "A"

/-- The post of the C1 witness: three quote paragraphs, hence exactly 3
chunks. -/
def claim1WitnessPost : WordPressPostData :=
  WordPressPostData.mk "T" "> a\n\n> b\n\n> c" (some "x") none [] [] "A"

/-- The post of the C2 counterexample: empty content. -/
def claim2CexPost : WordPressPostData :=
  WordPressPostData.mk "T" "" (some "x") none [] [] "A"

/-- A single paragraph of 51 one-letter words. -/
def claim4Content : String :=
  "w w w w w w w w w w w w w w w w w w w w w w w w w w w w w w w w w w w w w w w w w w w w w w w w w w w"

/-- The first character of a string is present and not whitespace. -/
def strHeadNW (s : String) : Bool :=
  match s.data with
  | [] => false
  | c :: _ => !ws c

/-- The last character of a string is present and not whitespace. -/
def strLastNW (s : String) : Bool :=
  match s.data.reverse with
  | [] => false
  | c :: _ => !ws c

lemma strData_append (a b : String) : (a ++ b).data = a.data ++ b.data := rfl

lemma strMk_data (l : List Char) : (String.mk l).data = l := rfl

lemma strMk_eq_empty_iff (l : List Char) : String.mk l = "" ↔ l = [] := by
  constructor
  · intro h
    have := congrArg String.data h
    simpa using this
  · intro h
    rw [h]

lemma str_eq_empty_iff (s : String) : s = "" ↔ s.data = [] := by
  constructor
  · intro h
    rw [h]
  · intro h
    cases s
    simpa [strMk_eq_empty_iff] using h

lemma wtrim_eq_nil_iff (l : List Char) : wtrim l = [] ↔ ∀ c ∈ l, ws c = true := by
  unfold wtrim
  rw [List.reverse_eq_nil_iff, List.dropWhile_eq_nil_iff]
  constructor
  · intro h c hc
    rcases List.mem_append.mp
        (by rw [List.takeWhile_append_dropWhile (p := ws) (l := l)]; exact hc :
          c ∈ l.takeWhile ws ++ l.dropWhile ws) with h1 | h2
    · exact List.mem_takeWhile_imp h1
    · exact h c (List.mem_reverse.mpr h2)
  · intro h c hc
    exact h c (List.dropWhile_sublist (p := ws) (l := l) |>.subset (List.mem_reverse.mp hc))

lemma wtrim_decomp (l : List Char) :
    ∃ pre post, l = pre ++ wtrim l ++ post ∧ (∀ c ∈ pre, ws c = true) ∧ (∀ c ∈ post, ws c = true) := by
  refine ⟨l.takeWhile ws, ((l.dropWhile ws).reverse.takeWhile ws).reverse, ?_, ?_, ?_⟩
  · have h2 : l.dropWhile ws =
        ((l.dropWhile ws).reverse.dropWhile ws).reverse ++ ((l.dropWhile ws).reverse.takeWhile ws).reverse := by
      conv_lhs =>
        rw [← List.reverse_reverse (l.dropWhile ws),
          ← List.takeWhile_append_dropWhile (p := ws) (l := (l.dropWhile ws).reverse),
          List.reverse_append]
    conv_lhs => rw [← List.takeWhile_append_dropWhile (p := ws) (l := l)]
    conv_lhs => rw [h2]
    rw [List.append_assoc]
    rfl
  · intro c hc
    exact List.mem_takeWhile_imp hc
  · intro c hc
    exact List.mem_takeWhile_imp (List.mem_reverse.mp hc)

lemma wtrim_ne_nil_of_mem (l : List Char) (c : Char) (hc : c ∈ l) (hws : ws c = false) :
    wtrim l ≠ [] := by
  intro h
  rw [wtrim_eq_nil_iff] at h
  rw [h c hc] at hws
  simp at hws

lemma exists_nonws_of_wtrim_ne_nil (l : List Char) (h : wtrim l ≠ []) :
    ∃ c ∈ l, ws c = false := by
  by_contra hall
  push_neg at hall
  exact h (wtrim_eq_nil_iff l |>.mpr fun c hc => by
    have := hall c hc
    revert this
    cases ws c <;> simp)

lemma mem_wtrim_of_nonws (l : List Char) (c : Char) (hc : c ∈ l) (hws : ws c = false) :
    c ∈ wtrim l := by
  obtain ⟨pre, post, hl, hpre, hpost⟩ := wtrim_decomp l
  rw [hl] at hc
  rcases List.mem_append.mp hc with h1 | h2
  · rcases List.mem_append.mp h1 with h3 | h4
    · rw [hpre c h3] at hws
      simp at hws
    · exact h4
  · rw [hpost c h2] at hws
    simp at hws

lemma wordsAux_append_ws (c : Char) (h : ws c = true) :
    ∀ (a r acc : List Char), wordsAux (a ++ c :: r) acc = wordsAux a acc ++ wordsAux r [] := by
  intro a
  induction a with
  | nil =>
    intro r acc
    cases acc <;> simp [wordsAux, h]
  | cons x xs ih =>
    intro r acc
    by_cases hx : ws x = true
    · cases acc <;> simp [wordsAux, hx, ih]
    · simp only [Bool.not_eq_true] at hx
      simp [wordsAux, hx, ih]

lemma wordsAux_all_ws : ∀ (l : List Char), (∀ c ∈ l, ws c = true) →
    ∀ acc, wordsAux l acc = wordsAux [] acc := by
  intro l
  induction l with
  | nil => intro _ _; rfl
  | cons x xs ih =>
    intro h acc
    have hx := h x (by simp)
    have ih0 : wordsAux xs [] = [] := by
      rw [ih (fun d hd => h d (List.mem_cons_of_mem x hd)) []]
      rfl
    cases acc <;> simp [wordsAux, hx, ih0]

lemma wordsAux_ws_prefix (pre m : List Char) (h : ∀ c ∈ pre, ws c = true) :
    wordsAux (pre ++ m) [] = wordsAux m [] := by
  induction pre with
  | nil => rfl
  | cons x xs ih =>
    have hx := h x (by simp)
    simp only [List.cons_append, wordsAux, hx, if_true, List.isEmpty_nil]
    exact ih (fun d hd => h d (by simp [hd]))

lemma words_wtrim (l : List Char) : wordsAux (wtrim l) [] = wordsAux l [] := by
  obtain ⟨pre, post, hl, hpre, hpost⟩ := wtrim_decomp l
  conv_rhs => rw [hl]
  rw [List.append_assoc, wordsAux_ws_prefix pre _ hpre]
  cases post with
  | nil => simp
  | cons d post' =>
    rw [wordsAux_append_ws d (hpost d (by simp)) (wtrim l) post' [],
      wordsAux_all_ws post' (fun x hx => hpost x (by simp [hx])) []]
    simp [wordsAux]

lemma strTrim_eq_empty_iff (s : String) : strTrim s = "" ↔ wtrim s.data = [] := by
  unfold strTrim
  exact strMk_eq_empty_iff _

lemma jsWordsLen_strTrim (s : String) : jsWordsLen (strTrim s) = jsWordsLen s := by
  unfold jsWordsLen strTrim
  rw [strMk_data]
  by_cases h : wtrim s.data = []
  · rw [h]
    simp [h, wtrim]
  · have h2 : wtrim (wtrim s.data) ≠ [] := by
      obtain ⟨c, hc, hcw⟩ := exists_nonws_of_wtrim_ne_nil _ h
      exact wtrim_ne_nil_of_mem _ c (mem_wtrim_of_nonws _ c hc hcw) hcw
    rw [if_neg h2, if_neg h, words_wtrim]

lemma str_ne_empty_of_strTrim (s : String) (h : strTrim s ≠ "") : s ≠ "" := by
  intro he
  rw [he] at h
  exact h rfl

lemma append_ne_empty_left (a b : String) (h : a ≠ "") : a ++ b ≠ "" := by
  intro he
  rw [str_eq_empty_iff, strData_append, List.append_eq_nil] at he
  exact h (str_eq_empty_iff a |>.mpr he.1)

lemma jsWordsLen_glue (a b : String) (ha : strTrim a ≠ "") (hb : strTrim b ≠ "") :
    jsWordsLen (a ++ "\n\n" ++ b) = jsWordsLen a + jsWordsLen b := by
  have ha2 : wtrim a.data ≠ [] := fun h => ha ((strTrim_eq_empty_iff a).mpr h)
  have hb2 : wtrim b.data ≠ [] := fun h => hb ((strTrim_eq_empty_iff b).mpr h)
  have hdata : (a ++ "\n\n" ++ b).data = a.data ++ '\n' :: '\n' :: b.data := by
    rw [strData_append, strData_append, List.append_assoc]
    rfl
  unfold jsWordsLen
  rw [hdata]
  have hcond : wtrim (a.data ++ '\n' :: '\n' :: b.data) ≠ [] := by
    obtain ⟨c, hc, hcw⟩ := exists_nonws_of_wtrim_ne_nil _ ha2
    exact wtrim_ne_nil_of_mem _ c (List.mem_append.mpr (Or.inl hc)) hcw
  rw [if_neg hcond, if_neg ha2, if_neg hb2,
    wordsAux_append_ws '\n' (by decide) a.data ('\n' :: b.data) []]
  simp [wordsAux, show ws '\n' = true by decide]

lemma segIter_plain (p : String) (st : SegState)
    (hh : isHeading p = false) (hq : isQuote p = false) (hi : hasImageInParagraph p = false)
    (hb : st.cur = "" ∨ st.cnt + jsWordsLen p ≤ 50) :
    segIter p st = SegState.mk st.chunks
      (if st.cur == "" then p else st.cur ++ "\n\n" ++ p) (st.cnt + jsWordsLen p) := by
  unfold segIter segHeadingFlush segBudgetFlush segAppend segQuoteImage
  rcases hb with hb | hb
  · simp [hh, hq, hi, hb]
  · have h50 : ¬ (50 < st.cnt + jsWordsLen p) := by omega
    simp [hh, hq, hi, h50]

lemma segIter_quote (p : String) (st : SegState)
    (hq : isQuote p = true) (hh : isHeading p = false)
    (hb : st.cur = "" ∨ st.cnt + jsWordsLen p ≤ 50) :
    segIter p st = SegState.mk (st.chunks ++
      [Chunk.mk none (cleanQuoteText p)
        (if hasImageInParagraph p then extractImageFromParagraph p else none)
        (if hasImageInParagraph p then extractImageAlt p else none)
        (hasImageInParagraph p) true]) "" 0 := by
  unfold segIter segHeadingFlush segBudgetFlush segAppend segQuoteImage
  rcases hb with hb | hb
  · simp [hh, hq, hb]
  · have h50 : ¬ (50 < st.cnt + jsWordsLen p) := by omega
    simp [hh, hq, h50]

lemma chunkOK_of_bufOK (paras : List String) (cur : String) (cnt : Nat)
    (hbuf : bufOK paras cur cnt) (c : Chunk) (htext : c.text = strTrim cur) :
    chunkBudgetOK paras c := by
  rcases hbuf with ⟨hc, _⟩ | ⟨ht, hlen, hdisj⟩
  · right
    left
    rw [htext, hc]
    decide
  · by_cases h50 : cnt ≤ 50
    · right
      left
      rw [htext, jsWordsLen_strTrim, hlen]
      exact h50
    · rcases hdisj with h | ⟨q, hq, hcur⟩
      · exact absurd h h50
      · right
        right
        refine ⟨q, hq, by rw [htext, hcur], ?_⟩
        rw [← hcur, hlen]
        omega

lemma strTrim_glue_ne (a b : String) (ha : strTrim a ≠ "") :
    strTrim (a ++ "\n\n" ++ b) ≠ "" := by
  intro hcontra
  rw [strTrim_eq_empty_iff] at hcontra
  have ha2 : wtrim a.data ≠ [] := fun h => ha ((strTrim_eq_empty_iff a).mpr h)
  obtain ⟨c, hc, hcw⟩ := exists_nonws_of_wtrim_ne_nil _ ha2
  have hdata : (a ++ "\n\n" ++ b).data = a.data ++ '\n' :: '\n' :: b.data := by
    rw [strData_append, strData_append, List.append_assoc]
    rfl
  rw [hdata] at hcontra
  exact wtrim_ne_nil_of_mem _ c (List.mem_append.mpr (Or.inl hc)) hcw hcontra

lemma segHeadingFlush_ok (paras : List String) (p : String) (st : SegState)
    (hbuf : bufOK paras st.cur st.cnt)
    (hch : ∀ c ∈ st.chunks, chunkBudgetOK paras c) :
    bufOK paras (segHeadingFlush p st).cur (segHeadingFlush p st).cnt ∧
      ∀ c ∈ (segHeadingFlush p st).chunks, chunkBudgetOK paras c := by
  unfold segHeadingFlush
  split
  · refine ⟨Or.inl ⟨rfl, rfl⟩, ?_⟩
    intro c hc
    rcases List.mem_append.mp hc with h | h
    · exact hch c h
    · rw [List.mem_singleton.mp h]
      exact chunkOK_of_bufOK paras st.cur st.cnt hbuf _ rfl
  · exact ⟨hbuf, hch⟩

lemma segBudgetFlush_ok (paras : List String) (p : String) (st : SegState)
    (hbuf : bufOK paras st.cur st.cnt)
    (hch : ∀ c ∈ st.chunks, chunkBudgetOK paras c) :
    bufOK paras (segBudgetFlush p st).cur (segBudgetFlush p st).cnt ∧
      ∀ c ∈ (segBudgetFlush p st).chunks, chunkBudgetOK paras c := by
  unfold segBudgetFlush
  split
  · refine ⟨Or.inl ⟨rfl, rfl⟩, ?_⟩
    intro c hc
    rcases List.mem_append.mp hc with h | h
    · exact hch c h
    · rw [List.mem_singleton.mp h]
      exact chunkOK_of_bufOK paras st.cur st.cnt hbuf _ rfl
  · exact ⟨hbuf, hch⟩

lemma segBudgetFlush_post (p : String) (st : SegState) :
    (segBudgetFlush p st).cur = "" ∨ (segBudgetFlush p st).cnt + jsWordsLen p ≤ 50 := by
  unfold segBudgetFlush
  split
  · exact Or.inl rfl
  · rename_i h
    rw [Bool.and_eq_true, not_and_or] at h
    rcases h with h | h
    · right
      simp only [decide_eq_true_eq] at h
      omega
    · left
      simp only [Bool.not_eq_true', Bool.not_eq_false, beq_iff_eq] at h
      exact h

lemma segAppend_bufOK (paras : List String) (p : String) (st : SegState)
    (hp : p ∈ paras) (hpt : strTrim p ≠ "")
    (hbuf : bufOK paras st.cur st.cnt)
    (hpost : st.cur = "" ∨ st.cnt + jsWordsLen p ≤ 50) :
    bufOK paras (segAppend p st).cur (segAppend p st).cnt := by
  unfold segAppend
  by_cases hcur : st.cur = ""
  · have hcnt : st.cnt = 0 := by
      rcases hbuf with ⟨_, h⟩ | ⟨ht, _, _⟩
      · exact h
      · exact absurd (by rw [hcur]; rfl) ht
    simp only [hcur, hcnt]
    right
    refine ⟨by simpa using hpt, by simp [jsWordsLen], ?_⟩
    right
    exact ⟨p, hp, by simp⟩
  · rcases hbuf with ⟨h, _⟩ | ⟨ht, hlen, _⟩
    · exact absurd h hcur
    · have hle : st.cnt + jsWordsLen p ≤ 50 := by
        rcases hpost with h | h
        · exact absurd h hcur
        · exact h
      have hbeq : (st.cur == "") = false := by
        simp [hcur]
      simp only [hbeq, Bool.false_eq_true, if_false]
      right
      refine ⟨strTrim_glue_ne st.cur p ht, ?_, Or.inl hle⟩
      rw [jsWordsLen_glue st.cur p ht hpt, hlen]

lemma segQuoteImage_ok (paras : List String) (p : String) (st : SegState)
    (hbuf : bufOK paras st.cur st.cnt)
    (hch : ∀ c ∈ st.chunks, chunkBudgetOK paras c) :
    bufOK paras (segQuoteImage p st).cur (segQuoteImage p st).cnt ∧
      ∀ c ∈ (segQuoteImage p st).chunks, chunkBudgetOK paras c := by
  unfold segQuoteImage
  split
  · refine ⟨Or.inl ⟨rfl, rfl⟩, ?_⟩
    intro c hc
    rcases List.mem_append.mp hc with h | h
    · exact hch c h
    · rw [List.mem_singleton.mp h]
      by_cases hq : isQuote p = true
      · left
        simp [hq]
      · have hq' : isQuote p = false := by
          revert hq
          cases isQuote p <;> simp
        exact chunkOK_of_bufOK paras st.cur st.cnt hbuf _ (by simp [hq'])
  · exact ⟨hbuf, hch⟩

lemma segIter_ok (paras : List String) (p : String) (st : SegState)
    (hp : p ∈ paras) (hpt : strTrim p ≠ "")
    (hbuf : bufOK paras st.cur st.cnt)
    (hch : ∀ c ∈ st.chunks, chunkBudgetOK paras c) :
    bufOK paras (segIter p st).cur (segIter p st).cnt ∧
      ∀ c ∈ (segIter p st).chunks, chunkBudgetOK paras c := by
  unfold segIter
  obtain ⟨hb1, hc1⟩ := segHeadingFlush_ok paras p st hbuf hch
  obtain ⟨hb2, hc2⟩ := segBudgetFlush_ok paras p _ hb1 hc1
  have hb3 := segAppend_bufOK paras p _ hp hpt hb2 (segBudgetFlush_post p _)
  have hc3 : ∀ c ∈ (segAppend p (segBudgetFlush p (segHeadingFlush p st))).chunks,
      chunkBudgetOK paras c := hc2
  exact segQuoteImage_ok paras p _ hb3 hc3

lemma segLoop_ok (paras : List String) (mc : Int) :
    ∀ (ps : List String) (st : SegState), (∀ p ∈ ps, p ∈ paras ∧ strTrim p ≠ "") →
    bufOK paras st.cur st.cnt → (∀ c ∈ st.chunks, chunkBudgetOK paras c) →
    bufOK paras (segLoop mc ps st).cur (segLoop mc ps st).cnt ∧
      ∀ c ∈ (segLoop mc ps st).chunks, chunkBudgetOK paras c := by
  intro ps
  induction ps with
  | nil =>
    intro st _ hb hc
    exact ⟨hb, hc⟩
  | cons p ps ih =>
    intro st hps hb hc
    obtain ⟨hbi, hci⟩ := segIter_ok paras p st (hps p (by simp)).1 (hps p (by simp)).2 hb hc
    simp only [segLoop]
    split
    · exact ⟨hbi, hci⟩
    · exact ih _ (fun q hq => hps q (by simp [hq])) hbi hci

lemma jsSliceEnd_subset {α : Type} (l : List α) (e : Int) : jsSliceEnd l e ⊆ l := by
  unfold jsSliceEnd
  split <;> exact List.take_subset _ _

lemma mem_paragraphsOf_strTrim (content : String) (p : String)
    (hp : p ∈ paragraphsOf content) : strTrim p ≠ "" := by
  unfold paragraphsOf at hp
  have := List.of_mem_filter hp
  simpa using this

lemma segmentContent_chunkOK (content : String) (mc : Int) :
    ∀ c ∈ segmentContent content mc, chunkBudgetOK (paragraphsOf content) c := by
  intro c hc
  simp only [segmentContent, segmentParagraphs] at hc
  obtain ⟨hb, hch⟩ := segLoop_ok (paragraphsOf content) mc (paragraphsOf content)
    ⟨[], "", 0⟩ (fun p hp => ⟨hp, mem_paragraphsOf_strTrim content p hp⟩)
    (Or.inl ⟨rfl, rfl⟩) (by intro d hd; simp at hd)
  have hc2 := jsSliceEnd_subset _ _ hc
  split at hc2
  · rcases List.mem_append.mp hc2 with h | h
    · exact hch c h
    · rw [List.mem_singleton.mp h]
      exact chunkOK_of_bufOK _ _ _ hb _ rfl
  · exact hch c hc2

lemma strAppend_assoc (x y z : String) : (x ++ y) ++ z = x ++ (y ++ z) := by
  apply String.ext
  rw [strData_append, strData_append, strData_append, strData_append, List.append_assoc]

lemma appendPars_glue (a : String) : ∀ (ps : List String) (b : String),
    appendPars (a ++ "\n\n" ++ b) ps = a ++ "\n\n" ++ appendPars b ps := by
  intro ps
  induction ps with
  | nil =>
    intro b
    rfl
  | cons p ps ih =>
    intro b
    show appendPars ((a ++ "\n\n" ++ b) ++ "\n\n" ++ p) ps = _
    rw [strAppend_assoc (a ++ "\n\n") b "\n\n", strAppend_assoc (a ++ "\n\n") (b ++ "\n\n") p]
    exact ih (b ++ "\n\n" ++ p)

lemma appendPars_eq_joinPars : ∀ (ps : List String) (p : String),
    appendPars p ps = joinPars (p :: ps) := by
  intro ps
  induction ps with
  | nil =>
    intro p
    rfl
  | cons q rest ih =>
    intro p
    show appendPars (p ++ "\n\n" ++ q) rest = _
    rw [appendPars_glue p rest q, ih q]
    rfl

lemma strTrim_appendPars_ne (ps : List String) : ∀ (cur : String),
    strTrim cur ≠ "" → strTrim (appendPars cur ps) ≠ "" := by
  induction ps with
  | nil =>
    intro cur h
    exact h
  | cons p ps ih =>
    intro cur h
    exact ih (cur ++ "\n\n" ++ p) (strTrim_glue_ne cur p h)

lemma jsSliceEnd_singleton {α : Type} (c : α) (e : Int) (he : 1 ≤ e) :
    jsSliceEnd [c] e = [c] := by
  unfold jsSliceEnd
  rw [if_neg (by omega)]
  have : ∃ n : Nat, e.toNat = n + 1 := ⟨e.toNat - 1, by omega⟩
  obtain ⟨n, hn⟩ := this
  rw [hn]
  simp

lemma segLoop_plain_append (mc : Int) (hmc : 1 ≤ mc) (qs : List String) :
    ∀ (ps : List String) (cur : String) (cnt : Nat), cur ≠ "" →
    (∀ p ∈ ps, isHeading p = false ∧ isQuote p = false ∧ hasImageInParagraph p = false) →
    cnt + (ps.map jsWordsLen).sum ≤ 50 →
    segLoop mc (ps ++ qs) (SegState.mk [] cur cnt) =
      segLoop mc qs (SegState.mk [] (appendPars cur ps) (cnt + (ps.map jsWordsLen).sum)) := by
  intro ps
  induction ps with
  | nil =>
    intro cur cnt _ _ _
    simp [appendPars]
  | cons p ps ih =>
    intro cur cnt hcur hplain hsum
    obtain ⟨hh, hq, hi⟩ := hplain p (by simp)
    have hsum' : cnt + jsWordsLen p + (ps.map jsWordsLen).sum ≤ 50 := by
      simp only [List.map_cons, List.sum_cons] at hsum
      omega
    have hstep := segIter_plain p (SegState.mk [] cur cnt) hh hq hi
      (Or.inr (show cnt + jsWordsLen p ≤ 50 by omega))
    have hne : (cur == "") = false := by simp [hcur]
    rw [hne] at hstep
    simp only [Bool.false_eq_true, if_false] at hstep
    simp only [List.cons_append, segLoop, hstep]
    rw [if_neg (by simp; omega)]
    have hrec := ih (cur ++ "\n\n" ++ p) (cnt + jsWordsLen p)
      (append_ne_empty_left _ _ (append_ne_empty_left _ _ hcur))
      (fun q hqq => hplain q (by simp [hqq])) hsum'
    show segLoop mc (ps ++ qs) (SegState.mk [] (cur ++ "\n\n" ++ p) (cnt + jsWordsLen p)) =
      segLoop mc qs (SegState.mk [] (appendPars cur (p :: ps))
        (cnt + (List.map jsWordsLen (p :: ps)).sum))
    rw [hrec]
    have harith : cnt + (List.map jsWordsLen (p :: ps)).sum =
        cnt + jsWordsLen p + (List.map jsWordsLen ps).sum := by
      simp only [List.map_cons, List.sum_cons]
      omega
    rw [harith]
    rfl

lemma segLoop_start (mc : Int) (hmc : 1 ≤ mc) (p0 : String) (rest qs : List String)
    (h0 : p0 ≠ "")
    (hplain : ∀ p ∈ p0 :: rest, isHeading p = false ∧ isQuote p = false ∧ hasImageInParagraph p = false)
    (hsum : ((p0 :: rest).map jsWordsLen).sum ≤ 50) :
    segLoop mc ((p0 :: rest) ++ qs) (SegState.mk [] "" 0) =
      segLoop mc qs (SegState.mk [] (appendPars p0 rest) (((p0 :: rest).map jsWordsLen).sum)) := by
  obtain ⟨hh, hq, hi⟩ := hplain p0 (by simp)
  have hstep := segIter_plain p0 (SegState.mk [] "" 0) hh hq hi (Or.inl rfl)
  simp only [beq_self_eq_true, if_true, Nat.zero_add] at hstep
  simp only [List.cons_append, segLoop, hstep]
  rw [if_neg (by simp; omega)]
  have hsum' : jsWordsLen p0 + (rest.map jsWordsLen).sum ≤ 50 := by
    simp only [List.map_cons, List.sum_cons] at hsum
    omega
  show segLoop mc (rest ++ qs) (SegState.mk [] p0 (jsWordsLen p0)) = _
  rw [segLoop_plain_append mc hmc qs rest p0 (jsWordsLen p0) h0
    (fun p hp => hplain p (by simp [hp])) hsum']
  simp only [List.map_cons, List.sum_cons]

lemma segmentParagraphs_plain (mc : Int) (hmc : 1 ≤ mc) (p0 : String) (rest : List String)
    (h0 : strTrim p0 ≠ "")
    (hplain : ∀ p ∈ p0 :: rest, isHeading p = false ∧ isQuote p = false ∧ hasImageInParagraph p = false)
    (hsum : ((p0 :: rest).map jsWordsLen).sum ≤ 50) :
    segmentParagraphs (p0 :: rest) mc =
      [Chunk.mk none (strTrim (joinPars (p0 :: rest))) none none false false] := by
  unfold segmentParagraphs
  have hloop := segLoop_start mc hmc p0 rest [] (str_ne_empty_of_strTrim p0 h0) hplain hsum
  rw [List.append_nil] at hloop
  rw [hloop]
  simp only [segLoop]
  have htr : strTrim (appendPars p0 rest) ≠ "" := strTrim_appendPars_ne rest p0 h0
  rw [appendPars_eq_joinPars] at htr ⊢
  have hbeq : (strTrim (joinPars (p0 :: rest)) == "") = false := by
    simpa using htr
  simp only [hbeq, Bool.not_false, Bool.true_and, List.length_nil, Nat.cast_zero,
    decide_eq_true_eq]
  rw [if_pos (by omega)]
  exact jsSliceEnd_singleton _ mc hmc

lemma segmentParagraphs_quote_end (mc : Int) (hmc : 1 ≤ mc) (p0 q : String) (rest : List String)
    (h0 : p0 ≠ "")
    (hplain : ∀ p ∈ p0 :: rest, isHeading p = false ∧ isQuote p = false ∧ hasImageInParagraph p = false)
    (hq : isQuote q = true) (hqh : isHeading q = false)
    (hsum : ((p0 :: rest).map jsWordsLen).sum + jsWordsLen q ≤ 50) :
    segmentParagraphs ((p0 :: rest) ++ [q]) mc =
      [Chunk.mk none (cleanQuoteText q)
        (if hasImageInParagraph q then extractImageFromParagraph q else none)
        (if hasImageInParagraph q then extractImageAlt q else none)
        (hasImageInParagraph q) true] := by
  unfold segmentParagraphs
  have hloop := segLoop_start mc hmc p0 rest [q] h0 hplain (by omega)
  rw [hloop]
  have hqstep := segIter_quote q (SegState.mk [] (appendPars p0 rest)
    (((p0 :: rest).map jsWordsLen).sum)) hq hqh
    (Or.inr (show ((p0 :: rest).map jsWordsLen).sum + jsWordsLen q ≤ 50 by omega))
  simp only [segLoop, hqstep, List.nil_append, ite_self]
  simp only [show (strTrim "" == "") = true from by decide, Bool.not_true, Bool.false_and,
    Bool.false_eq_true, if_false]
  exact jsSliceEnd_singleton _ mc hmc

lemma segHeadingFlush_chunks_prefix (p : String) (st : SegState) :
    ∃ f, (segHeadingFlush p st).chunks = st.chunks ++ f := by
  unfold segHeadingFlush
  split
  · exact ⟨_, rfl⟩
  · exact ⟨[], (List.append_nil _).symm⟩

lemma segBudgetFlush_chunks_prefix (p : String) (st : SegState) :
    ∃ f, (segBudgetFlush p st).chunks = st.chunks ++ f := by
  unfold segBudgetFlush
  split
  · exact ⟨_, rfl⟩
  · exact ⟨[], (List.append_nil _).symm⟩

lemma segQuoteImage_chunks_prefix (p : String) (st : SegState) :
    ∃ f, (segQuoteImage p st).chunks = st.chunks ++ f := by
  unfold segQuoteImage
  split
  · exact ⟨_, rfl⟩
  · exact ⟨[], (List.append_nil _).symm⟩

lemma segIter_chunks_prefix (p : String) (st : SegState) :
    ∃ f, (segIter p st).chunks = st.chunks ++ f := by
  obtain ⟨f1, h1⟩ := segHeadingFlush_chunks_prefix p st
  obtain ⟨f2, h2⟩ := segBudgetFlush_chunks_prefix p (segHeadingFlush p st)
  obtain ⟨f3, h3⟩ :=
    segQuoteImage_chunks_prefix p (segAppend p (segBudgetFlush p (segHeadingFlush p st)))
  refine ⟨f1 ++ (f2 ++ f3), ?_⟩
  show (segQuoteImage p (segAppend p (segBudgetFlush p (segHeadingFlush p st)))).chunks = _
  have h4 : (segAppend p (segBudgetFlush p (segHeadingFlush p st))).chunks
      = (segBudgetFlush p (segHeadingFlush p st)).chunks := rfl
  rw [h3, h4, h2, h1, List.append_assoc, List.append_assoc]

lemma segLoop_chunks_prefix (mc : Int) : ∀ (ps : List String) (st : SegState),
    ∃ f, (segLoop mc ps st).chunks = st.chunks ++ f := by
  intro ps
  induction ps with
  | nil => intro st; exact ⟨[], (List.append_nil _).symm⟩
  | cons p ps ih =>
    intro st
    obtain ⟨f1, h1⟩ := segIter_chunks_prefix p st
    simp only [segLoop]
    split
    · exact ⟨f1, h1⟩
    · obtain ⟨f2, h2⟩ := ih (segIter p st)
      exact ⟨f1 ++ f2, by rw [h2, h1, List.append_assoc]⟩

lemma jsSliceEnd_cons_head {α : Type} (a : α) (l : List α) (e : Int) (he : 1 ≤ e) :
    ∃ t, jsSliceEnd (a :: l) e = a :: t := by
  unfold jsSliceEnd
  rw [if_neg (by omega)]
  have hx : ∃ n : Nat, e.toNat = n + 1 := ⟨e.toNat - 1, by omega⟩
  obtain ⟨n, hn⟩ := hx
  rw [hn]
  exact ⟨l.take n, rfl⟩

lemma segmentParagraphs_quote_mid (mc : Int) (hmc : 1 ≤ mc) (p0 q : String)
    (rest Rs : List String) (h0 : p0 ≠ "")
    (hplain : ∀ p ∈ p0 :: rest,
      isHeading p = false ∧ isQuote p = false ∧ hasImageInParagraph p = false)
    (hq : isQuote q = true) (hqh : isHeading q = false)
    (hsum : ((p0 :: rest).map jsWordsLen).sum + jsWordsLen q ≤ 50) :
    ∃ t, segmentParagraphs ((p0 :: rest) ++ q :: Rs) mc =
      Chunk.mk none (cleanQuoteText q)
        (if hasImageInParagraph q then extractImageFromParagraph q else none)
        (if hasImageInParagraph q then extractImageAlt q else none)
        (hasImageInParagraph q) true :: t := by
  simp only [segmentParagraphs]
  have hloop := segLoop_start mc hmc p0 rest (q :: Rs) h0 hplain (by omega)
  rw [hloop]
  have hqstep := segIter_quote q (SegState.mk [] (appendPars p0 rest)
    (((p0 :: rest).map jsWordsLen).sum)) hq hqh
    (Or.inr (show ((p0 :: rest).map jsWordsLen).sum + jsWordsLen q ≤ 50 by omega))
  set A := segLoop mc (q :: Rs) (SegState.mk [] (appendPars p0 rest)
    (((p0 :: rest).map jsWordsLen).sum)) with hAdef
  obtain ⟨more, hmore⟩ : ∃ more, A.chunks =
      Chunk.mk none (cleanQuoteText q)
        (if hasImageInParagraph q then extractImageFromParagraph q else none)
        (if hasImageInParagraph q then extractImageAlt q else none)
        (hasImageInParagraph q) true :: more := by
    rw [hAdef]
    have hstep : segLoop mc (q :: Rs) (SegState.mk [] (appendPars p0 rest)
        (((p0 :: rest).map jsWordsLen).sum)) =
        if mc ≤ (((SegState.mk [Chunk.mk none (cleanQuoteText q)
            (if hasImageInParagraph q then extractImageFromParagraph q else none)
            (if hasImageInParagraph q then extractImageAlt q else none)
            (hasImageInParagraph q) true] "" 0).chunks).length : Int) then
          SegState.mk [Chunk.mk none (cleanQuoteText q)
            (if hasImageInParagraph q then extractImageFromParagraph q else none)
            (if hasImageInParagraph q then extractImageAlt q else none)
            (hasImageInParagraph q) true] "" 0
        else segLoop mc Rs (SegState.mk [Chunk.mk none (cleanQuoteText q)
            (if hasImageInParagraph q then extractImageFromParagraph q else none)
            (if hasImageInParagraph q then extractImageAlt q else none)
            (hasImageInParagraph q) true] "" 0) := by
      show (let st2 := segIter q (SegState.mk [] (appendPars p0 rest)
          (((p0 :: rest).map jsWordsLen).sum));
        if mc ≤ (st2.chunks.length : Int) then st2
        else segLoop mc Rs st2) = _
      rw [hqstep]
      rfl
    rw [hstep]
    by_cases hc : mc ≤ (((SegState.mk [Chunk.mk none (cleanQuoteText q)
        (if hasImageInParagraph q then extractImageFromParagraph q else none)
        (if hasImageInParagraph q then extractImageAlt q else none)
        (hasImageInParagraph q) true] "" 0).chunks).length : Int)
    · rw [if_pos hc]
      exact ⟨[], rfl⟩
    · rw [if_neg hc]
      obtain ⟨f, hf⟩ := segLoop_chunks_prefix mc Rs (SegState.mk
        [Chunk.mk none (cleanQuoteText q)
          (if hasImageInParagraph q then extractImageFromParagraph q else none)
          (if hasImageInParagraph q then extractImageAlt q else none)
          (hasImageInParagraph q) true] "" 0)
      exact ⟨f, by rw [hf]; rfl⟩
  by_cases hflush : (!(strTrim A.cur == "") && decide ((A.chunks.length : Int) < mc)) = true
  · rw [if_pos hflush, hmore, List.cons_append]
    exact jsSliceEnd_cons_head _ _ mc hmc
  · rw [if_neg hflush, hmore]
    exact jsSliceEnd_cons_head _ _ mc hmc

lemma slidesFromChunks_length (author : String) (images : List String)
    (config : TemplateConfig) (animPick : Nat → Nat) :
    ∀ (i : Nat) (cs : List Chunk),
      (slidesFromChunks author images config animPick i cs).length = cs.length := by
  intro i cs
  induction cs generalizing i with
  | nil => rfl
  | cons c cs ih => simp [slidesFromChunks, ih]

lemma mkContentSlide_type (author : String) (images : List String)
    (config : TemplateConfig) (animPick : Nat → Nat) (i : Nat) (c : Chunk) :
    (mkContentSlide author images config animPick i c).type = SlideType.content ∨
    (mkContentSlide author images config animPick i c).type = SlideType.quote ∨
    (mkContentSlide author images config animPick i c).type = SlideType.image := by
  simp only [mkContentSlide]
  split_ifs <;> simp

lemma slidesFromChunks_type_mem (author : String) (images : List String)
    (config : TemplateConfig) (animPick : Nat → Nat) :
    ∀ (i : Nat) (cs : List Chunk) (s : StorySlide),
      s ∈ slidesFromChunks author images config animPick i cs →
      s.type = SlideType.content ∨ s.type = SlideType.quote ∨ s.type = SlideType.image := by
  intro i cs
  induction cs generalizing i with
  | nil =>
    intro s hs
    simp [slidesFromChunks] at hs
  | cons c cs ih =>
    intro s hs
    simp only [slidesFromChunks, List.mem_cons] at hs
    rcases hs with hs | hs
    · rw [hs]
      exact mkContentSlide_type author images config animPick i c
    · exact ih (i + 1) s hs

lemma createContentSlides_types (postData : WordPressPostData) (config : TemplateConfig)
    (maxSlides : Int) (animPick : Nat → Nat) :
    ∀ s ∈ createContentSlides postData config maxSlides animPick,
      s.type = SlideType.content ∨ s.type = SlideType.quote ∨ s.type = SlideType.image := by
  intro s hs
  simp only [createContentSlides] at hs
  exact slidesFromChunks_type_mem _ _ _ _ 0 _ s (jsSliceEnd_subset _ _ hs)

lemma getLast?_cons_concat {α : Type} (a b : α) (l : List α) :
    (a :: (l ++ [b])).getLast? = some b := by
  rw [← List.cons_append, List.getLast?_concat]

/-- C3: `generateStory` emits exactly one title slide iff `includeTitle`,
exactly one CTA slide iff `includeCTA`; when present the title slide is
first and the CTA slide is last. -/
theorem claim3_title_cta_slides (template : StoryTemplate) (postData : WordPressPostData)
    (options : GenerationOptions) (animPick : Nat → Nat) :
    ((generateStory template postData options animPick).countP
        (fun s => decide (s.type = SlideType.title)) =
      if options.includeTitle then 1 else 0) ∧
    ((generateStory template postData options animPick).countP
        (fun s => decide (s.type = SlideType.cta)) =
      if options.includeCTA then 1 else 0) ∧
    (options.includeTitle = true →
      (generateStory template postData options animPick).head?.map StorySlide.type =
        some SlideType.title) ∧
    (options.includeCTA = true →
      (generateStory template postData options animPick).getLast?.map StorySlide.type =
        some SlideType.cta) := by
  have hmidT : ∀ mc : Int, (createContentSlides postData
      (mergeConfig template.config options.customizations) mc animPick).countP
      (fun s => decide (s.type = SlideType.title)) = 0 := by
    intro mc
    rw [List.countP_eq_zero]
    intro s hs
    rcases createContentSlides_types postData _ mc animPick s hs with h | h | h <;> simp [h]
  have hmidC : ∀ mc : Int, (createContentSlides postData
      (mergeConfig template.config options.customizations) mc animPick).countP
      (fun s => decide (s.type = SlideType.cta)) = 0 := by
    intro mc
    rw [List.countP_eq_zero]
    intro s hs
    rcases createContentSlides_types postData _ mc animPick s hs with h | h | h <;> simp [h]
  have hmidNT : ∀ mc : Int, ∀ s ∈ createContentSlides postData
      (mergeConfig template.config options.customizations) mc animPick,
      ¬ s.type = SlideType.title := by
    intro mc s hs
    rcases createContentSlides_types postData _ mc animPick s hs with h | h | h <;> simp [h]
  have hmidNC : ∀ mc : Int, ∀ s ∈ createContentSlides postData
      (mergeConfig template.config options.customizations) mc animPick,
      ¬ s.type = SlideType.cta := by
    intro mc s hs
    rcases createContentSlides_types postData _ mc animPick s hs with h | h | h <;> simp [h]
  unfold generateStory
  cases hT : options.includeTitle <;> cases hC : options.includeCTA <;>
    simp [hT, hC, List.countP_append, hmidT, hmidC, hmidNT, hmidNC, List.countP_cons,
      createTitleSlide, createCTASlide, List.getLast?_concat, getLast?_cons_concat]

/-- C1 (amended): with `maxSlides = 5`, `includeTitle = true`,
`includeCTA = true`, whenever the segmentation of the post content with
chunk cap 3 yields exactly 3 chunks, `generateStory` returns exactly 5
slides in the order: title, three content/quote/image slides, cta. -/
theorem claim1_amended (template : StoryTemplate) (postData : WordPressPostData)
    (ctaText ctaUrl : String) (cust : Customizations) (animPick : Nat → Nat)
    (h : (segmentContent postData.content 3).length = 3) :
    ∃ t1 t2 t3, (generateStory template postData
        (GenerationOptions.mk 5 true true ctaText ctaUrl cust) animPick).map StorySlide.type =
      [SlideType.title, t1, t2, t3, SlideType.cta] ∧
      ∀ t ∈ [t1, t2, t3],
        t = SlideType.content ∨ t = SlideType.quote ∨ t = SlideType.image := by
  obtain ⟨c1, c2, c3, hc⟩ := List.length_eq_three.mp h
  have hgen : generateStory template postData
      (GenerationOptions.mk 5 true true ctaText ctaUrl cust) animPick =
      [createTitleSlide postData (mergeConfig template.config cust) (animPick 0)] ++
      createContentSlides postData (mergeConfig template.config cust) 3 animPick ++
      [createCTASlide postData (mergeConfig template.config cust) ctaText ctaUrl] := by
    unfold generateStory
    norm_num
  have hslice : ∀ (a b c : StorySlide), jsSliceEnd [a, b, c] 3 = [a, b, c] := by
    intro a b c
    unfold jsSliceEnd
    norm_num
  have hcs : createContentSlides postData (mergeConfig template.config cust) 3 animPick =
      [mkContentSlide postData.author (extractImages postData.content)
        (mergeConfig template.config cust) animPick 0 c1,
       mkContentSlide postData.author (extractImages postData.content)
        (mergeConfig template.config cust) animPick 1 c2,
       mkContentSlide postData.author (extractImages postData.content)
        (mergeConfig template.config cust) animPick 2 c3] := by
    unfold createContentSlides
    rw [hc]
    simp only [slidesFromChunks]
    exact hslice _ _ _
  rw [hgen, hcs]
  refine ⟨(mkContentSlide postData.author (extractImages postData.content)
      (mergeConfig template.config cust) animPick 0 c1).type,
    (mkContentSlide postData.author (extractImages postData.content)
      (mergeConfig template.config cust) animPick 1 c2).type,
    (mkContentSlide postData.author (extractImages postData.content)
      (mergeConfig template.config cust) animPick 2 c3).type,
    by simp [createTitleSlide, createCTASlide], ?_⟩
  intro t ht
  simp only [List.mem_cons, List.not_mem_nil, or_false] at ht
  rcases ht with h1 | h1 | h1 <;> rw [h1] <;> exact mkContentSlide_type _ _ _ _ _ _

/-- C1 counterexample: a post whose content yields 10 segmentable
paragraphs for which `generateStory` with `maxSlides = 5`,
`includeTitle = true`, `includeCTA = true` returns 3 slides, not 5 (the
ten short paragraphs all fit one chunk). -/
theorem claim1_counterexample :
    (paragraphsOf claim1CexPost.content).length = 10 ∧
    (generateStory demoTemplate claim1CexPost
      (GenerationOptions.mk 5 true true "Read Full Article" "#" noCustom)
      (fun _ => 0)).length = 3 := by
  constructor
  · decide
  · decide

theorem claim1_witness :
    ∃ t1 t2 t3, (generateStory demoTemplate claim1WitnessPost
        (GenerationOptions.mk 5 true true "Read Full Article" "#" noCustom)
        (fun _ => 0)).map StorySlide.type =
      [SlideType.title, t1, t2, t3, SlideType.cta] ∧
      ∀ t ∈ [t1, t2, t3],
        t = SlideType.content ∨ t = SlideType.quote ∨ t = SlideType.image :=
  claim1_amended demoTemplate claim1WitnessPost "Read Full Article" "#" noCustom
    (fun _ => 0) (by decide)

theorem claim3_witness :
    ((generateStory demoTemplate claim1WitnessPost
        (GenerationOptions.mk 3 true true "Read Full Article" "#" noCustom)
        (fun _ => 0)).head?.map StorySlide.type = some SlideType.title) ∧
    ((generateStory demoTemplate claim1WitnessPost
        (GenerationOptions.mk 3 true true "Read Full Article" "#" noCustom)
        (fun _ => 0)).getLast?.map StorySlide.type = some SlideType.cta) :=
  ⟨(claim3_title_cta_slides demoTemplate claim1WitnessPost
      (GenerationOptions.mk 3 true true "Read Full Article" "#" noCustom) (fun _ => 0)).2.2.1 rfl,
   (claim3_title_cta_slides demoTemplate claim1WitnessPost
      (GenerationOptions.mk 3 true true "Read Full Article" "#" noCustom) (fun _ => 0)).2.2.2 rfl⟩

lemma segIter_init_len (p : String) :
    (segIter p (SegState.mk [] "" 0)).chunks.length ≤ 1 := by
  unfold segIter segHeadingFlush segBudgetFlush segAppend segQuoteImage
  simp only [beq_self_eq_true, Bool.not_true, Bool.and_false, Bool.false_eq_true, if_false]
  split <;> simp

lemma segmentParagraphs_nonpos (ps : List String) (mc : Int) (h : mc ≤ 0) :
    segmentParagraphs ps mc = [] := by
  unfold segmentParagraphs
  cases ps with
  | nil =>
    simp only [segLoop]
    simp only [show (strTrim "" == "") = true from by decide, Bool.not_true,
      Bool.false_and, Bool.false_eq_true, if_false]
    unfold jsSliceEnd
    split <;> simp [Int.toNat_of_nonpos h]
  | cons p rest =>
    simp only [segLoop]
    have hcond : mc ≤ ((segIter p (SegState.mk [] "" 0)).chunks.length : Int) :=
      le_trans h (Int.natCast_nonneg _)
    simp only [if_pos hcond]
    have hlt : ¬ (((segIter p (SegState.mk [] "" 0)).chunks.length : Int) < mc) := by
      have := Int.natCast_nonneg ((segIter p (SegState.mk [] "" 0)).chunks.length)
      omega
    simp only [hlt, decide_False, Bool.and_false, Bool.false_eq_true, if_false]
    have hlen := segIter_init_len p
    unfold jsSliceEnd
    split
    · rename_i hneg
      have h0 : (((segIter p (SegState.mk [] "" 0)).chunks.length : Int) + mc).toNat = 0 := by
        apply Int.toNat_of_nonpos
        omega
      rw [h0, List.take_zero]
    · rw [Int.toNat_of_nonpos h, List.take_zero]

lemma segmentContent_nonpos (content : String) (mc : Int) (h : mc ≤ 0) :
    segmentContent content mc = [] :=
  segmentParagraphs_nonpos _ mc h

lemma jsSliceEnd_length_le {α : Type} (l : List α) (e : Int) (he : 0 ≤ e) :
    ((jsSliceEnd l e).length : Int) ≤ e := by
  unfold jsSliceEnd
  rw [if_neg (by omega)]
  have := List.length_take_le e.toNat l
  have h2 : (e.toNat : Int) = e := Int.toNat_of_nonneg he
  omega

lemma jsSliceEnd_ne_nil {α : Type} (l : List α) (e : Int) (he : 1 ≤ e) (hl : l ≠ []) :
    jsSliceEnd l e ≠ [] := by
  unfold jsSliceEnd
  rw [if_neg (by omega)]
  intro hcontra
  rw [List.take_eq_nil_iff] at hcontra
  rcases hcontra with h | h
  · omega
  · exact hl h

lemma createContentSlides_length_le (postData : WordPressPostData) (config : TemplateConfig)
    (mc : Int) (animPick : Nat → Nat) (h : 0 ≤ mc) :
    ((createContentSlides postData config mc animPick).length : Int) ≤ mc := by
  unfold createContentSlides
  exact jsSliceEnd_length_le _ mc h

lemma createContentSlides_ne_nil (postData : WordPressPostData) (config : TemplateConfig)
    (mc : Int) (animPick : Nat → Nat) (h : segmentContent postData.content mc ≠ []) :
    createContentSlides postData config mc animPick ≠ [] := by
  have hmc : 1 ≤ mc := by
    by_contra hneg
    push_neg at hneg
    exact h (segmentContent_nonpos _ mc (by omega))
  unfold createContentSlides
  apply jsSliceEnd_ne_nil _ mc hmc
  intro hnil
  apply h
  have := slidesFromChunks_length postData.author (extractImages postData.content)
    config animPick 0 (segmentContent postData.content mc)
  rw [hnil] at this
  exact List.length_eq_zero.mp this.symm

lemma generateStory_length (template : StoryTemplate) (postData : WordPressPostData)
    (options : GenerationOptions) (animPick : Nat → Nat) :
    (generateStory template postData options animPick).length =
      (if options.includeTitle then 1 else 0) +
      (createContentSlides postData (mergeConfig template.config options.customizations)
        (options.maxSlides - (if options.includeTitle then 1 else 0)
          - (if options.includeCTA then 1 else 0)) animPick).length +
      (if options.includeCTA then 1 else 0) := by
  unfold generateStory
  cases hT : options.includeTitle <;> cases hC : options.includeCTA <;> simp [hT, hC] <;> omega

/-- C2 (amended): the slide count of `generateStory` is at most `maxSlides`
provided `maxSlides` covers the enabled title/CTA slides (the claim fails
otherwise, e.g. `maxSlides = 1` with both enabled gives 2 slides), and is
at least 1 provided a title slide, a CTA slide, or at least one content
chunk exists (the claim fails for empty content with both disabled);
truncation of excess chunks is silent — the function is total and never
raises. -/
theorem claim2_amended (template : StoryTemplate) (postData : WordPressPostData)
    (options : GenerationOptions) (animPick : Nat → Nat) :
    (((if options.includeTitle then (1 : Int) else 0) +
        (if options.includeCTA then (1 : Int) else 0) ≤ options.maxSlides) →
      ((generateStory template postData options animPick).length : Int) ≤ options.maxSlides) ∧
    ((options.includeTitle = true ∨ options.includeCTA = true ∨
        segmentContent postData.content (options.maxSlides
          - (if options.includeTitle then 1 else 0)
          - (if options.includeCTA then 1 else 0)) ≠ []) →
      1 ≤ (generateStory template postData options animPick).length) := by
  rw [generateStory_length]
  constructor
  · intro hb
    have hmc0 : 0 ≤ options.maxSlides - (if options.includeTitle then (1 : Int) else 0)
        - (if options.includeCTA then (1 : Int) else 0) := by omega
    have hle := createContentSlides_length_le postData
      (mergeConfig template.config options.customizations)
      (options.maxSlides - (if options.includeTitle then (1 : Int) else 0)
        - (if options.includeCTA then (1 : Int) else 0)) animPick hmc0
    push_cast
    omega
  · intro hone
    rcases hone with hT | hC | hne
    · have h1 : (if options.includeTitle then (1 : Nat) else 0) = 1 := by simp [hT]
      omega
    · have h1 : (if options.includeCTA then (1 : Nat) else 0) = 1 := by simp [hC]
      omega
    · have hpos : 0 < (createContentSlides postData
          (mergeConfig template.config options.customizations)
          (options.maxSlides - (if options.includeTitle then 1 else 0)
            - (if options.includeCTA then 1 else 0)) animPick).length :=
        List.length_pos.mpr (createContentSlides_ne_nil postData
          (mergeConfig template.config options.customizations) _ animPick hne)
      omega

/-- C2 counterexample: with `includeTitle = includeCTA = false` and empty
content, `generateStory` returns 0 slides (violating `1 ≤ len`), and with
`maxSlides = 1` and both enabled it returns 2 slides (violating
`len ≤ maxSlides`). -/
theorem claim2_counterexample :
    (generateStory demoTemplate claim2CexPost
      (GenerationOptions.mk 10 false false "Read Full Article" "#" noCustom)
      (fun _ => 0)).length = 0 ∧
    (generateStory demoTemplate claim2CexPost
      (GenerationOptions.mk 1 true true "Read Full Article" "#" noCustom)
      (fun _ => 0)).length = 2 := by
  constructor
  · decide
  · decide

theorem claim2_witness :
    ((generateStory demoTemplate claim1CexPost
        (GenerationOptions.mk 5 true true "Read Full Article" "#" noCustom)
        (fun _ => 0)).length : Int) ≤ 5 ∧
    1 ≤ (generateStory demoTemplate claim1CexPost
        (GenerationOptions.mk 5 true true "Read Full Article" "#" noCustom)
        (fun _ => 0)).length :=
  ⟨(claim2_amended demoTemplate claim1CexPost
      (GenerationOptions.mk 5 true true "Read Full Article" "#" noCustom) (fun _ => 0)).1
      (by decide),
   (claim2_amended demoTemplate claim1CexPost
      (GenerationOptions.mk 5 true true "Read Full Article" "#" noCustom) (fun _ => 0)).2
      (Or.inl rfl)⟩

/-- C4 (amended): a chunk whose text exceeds the 50-word budget is either a
quote chunk or consists of a single paragraph whose own word count exceeds
the budget — an oversized paragraph is never split. -/
theorem claim4_amended (content : String) (maxChunks : Int) :
    ∀ c ∈ segmentContent content maxChunks, c.isQuote = false →
      50 < jsWordsLen c.text →
      ∃ p, p ∈ paragraphsOf content ∧ c.text = strTrim p ∧ 50 < jsWordsLen p := by
  intro c hc hq h50
  rcases segmentContent_chunkOK content maxChunks c hc with h | h | h
  · rw [hq] at h
    simp at h
  · omega
  · exact h

set_option maxRecDepth 8000 in
/-- C4 counterexample: an input with no heading, quote, or image paragraph
at all whose segmentation emits a plain chunk of 51 words — a chunk not
force-closed by any of the claimed exceptions yet exceeding the budget. -/
theorem claim4_counterexample :
    (∀ p ∈ paragraphsOf claim4Content, isHeading p = false ∧ isQuote p = false ∧
      hasImageInParagraph p = false) ∧
    ∃ c ∈ segmentContent claim4Content 10, c.isQuote = false ∧ c.hasImage = false ∧
      50 < jsWordsLen c.text := by
  constructor
  · decide
  · decide

set_option maxRecDepth 8000 in
theorem claim4_witness :
    ∃ p, p ∈ paragraphsOf claim4Content ∧
      (Chunk.mk none claim4Content none none false false).text = strTrim p ∧
      50 < jsWordsLen p :=
  claim4_amended claim4Content 10 (Chunk.mk none claim4Content none none false false)
    (by decide) (by decide) (by decide)

/-- C5: a quote paragraph closes its chunk in that very loop iteration: the
iteration appends (after at most the heading/budget flushes) a chunk with
`isQuote = true` whose text is `cleanQuoteText` of the paragraph, and
resets the buffer. -/
theorem claim5_quote_terminates (p : String) (st : SegState) (hq : isQuote p = true) :
    ∃ flushed ch, segIter p st = SegState.mk (st.chunks ++ flushed ++ [ch]) "" 0 ∧
      ch.isQuote = true ∧ ch.text = cleanQuoteText p := by
  obtain ⟨f1, hf1⟩ : ∃ f, (segHeadingFlush p st).chunks = st.chunks ++ f := by
    unfold segHeadingFlush
    split
    · exact ⟨_, rfl⟩
    · exact ⟨[], (List.append_nil _).symm⟩
  obtain ⟨f2, hf2⟩ : ∃ f, (segBudgetFlush p (segHeadingFlush p st)).chunks =
      (segHeadingFlush p st).chunks ++ f := by
    unfold segBudgetFlush
    split
    · exact ⟨_, rfl⟩
    · exact ⟨[], (List.append_nil _).symm⟩
  refine ⟨f1 ++ f2, Chunk.mk (if isHeading p then some (cleanHeadingText p) else none)
      (cleanQuoteText p)
      (if hasImageInParagraph p then extractImageFromParagraph p else none)
      (if hasImageInParagraph p then extractImageAlt p else none)
      (hasImageInParagraph p) true, ?_, rfl, rfl⟩
  unfold segIter segQuoteImage
  simp only [hq, Bool.true_or, if_true]
  show SegState.mk ((segBudgetFlush p (segHeadingFlush p st)).chunks ++ _) "" 0 = _
  rw [hf2, hf1]
  simp [hq, List.append_assoc]

theorem claim5_witness :
    ∃ flushed ch, segIter "> hi" (SegState.mk [] "some buffered text" 3) =
      SegState.mk (([] : List Chunk) ++ flushed ++ [ch]) "" 0 ∧
      ch.isQuote = true ∧ ch.text = cleanQuoteText "> hi" :=
  claim5_quote_terminates "> hi" (SegState.mk [] "some buffered text" 3) (by decide)

/-- C6 (amended): for content with at least one non-empty paragraph, none
of whose paragraphs is a heading, a quote, or image-bearing, whose total
word count is within the 50-word budget, and any `maxChunks ≥ 1`,
segmentation yields exactly one plain chunk whose text is all non-empty
paragraphs joined with blank-line separators in original order. -/
theorem claim6_amended (content : String) (mc : Int) (hmc : 1 ≤ mc)
    (hne : paragraphsOf content ≠ [])
    (hplain : ∀ p ∈ paragraphsOf content, isHeading p = false ∧ isQuote p = false ∧
      hasImageInParagraph p = false)
    (hsum : ((paragraphsOf content).map jsWordsLen).sum ≤ 50) :
    segmentContent content mc =
      [Chunk.mk none (strTrim (joinPars (paragraphsOf content))) none none false false] := by
  obtain ⟨p0, rest, hps⟩ := List.exists_cons_of_ne_nil hne
  have h0 : strTrim p0 ≠ "" :=
    mem_paragraphsOf_strTrim content p0 (by rw [hps]; exact List.mem_cons_self p0 rest)
  unfold segmentContent
  rw [hps] at hplain hsum ⊢
  exact segmentParagraphs_plain mc hmc p0 rest h0 hplain hsum

/-- C6 counterexample: `"> hi"` has total word count 2 (well under the
budget) yet segmentation yields a quote chunk whose text is not the
blank-line concatenation of the paragraphs. -/
theorem claim6_counterexample :
    ((paragraphsOf "> hi").map jsWordsLen).sum = 2 ∧
    segmentContent "> hi" 10 = [Chunk.mk none "hi" none none false true] ∧
    strTrim (joinPars (paragraphsOf "> hi")) ≠ "hi" := by
  refine ⟨?_, ?_, ?_⟩
  · decide
  · decide
  · decide

theorem claim6_witness :
    segmentContent "alpha beta\n\ngamma delta" 10 =
      [Chunk.mk none (strTrim (joinPars (paragraphsOf "alpha beta\n\ngamma delta")))
        none none false false] :=
  claim6_amended "alpha beta\n\ngamma delta" 10 (by norm_num) (by decide) (by decide) (by decide)

/-- C10 (amended): when one or more plain paragraphs sit in the open buffer
and the next paragraph is a quote that is not also recognized as a heading,
with its addition within the 50-word budget, the chunk emitted at the quote
holds only the cleaned quote text and is the first chunk of the output;
when the quote is the final paragraph, the buffered paragraphs appear in no
chunk of the output.  For a quote that is also a heading the heading flush
runs first and emits the buffered paragraphs as their own chunk, so the
frozen claim fails there (see the counterexample). -/
theorem claim10_amended (content : String) (mc : Int) (Ps : List String)
    (q : String) (Rs : List String)
    (hps : paragraphsOf content = Ps ++ q :: Rs) (hPs : Ps ≠ [])
    (hplain : ∀ p ∈ Ps, isHeading p = false ∧ isQuote p = false ∧ hasImageInParagraph p = false)
    (hq : isQuote q = true) (hqh : isHeading q = false) (hmc : 1 ≤ mc)
    (hsum : (Ps.map jsWordsLen).sum + jsWordsLen q ≤ 50) :
    (∃ t, segmentContent content mc =
      Chunk.mk none (cleanQuoteText q)
        (if hasImageInParagraph q then extractImageFromParagraph q else none)
        (if hasImageInParagraph q then extractImageAlt q else none)
        (hasImageInParagraph q) true :: t) ∧
    (Rs = [] →
      segmentContent content mc =
        [Chunk.mk none (cleanQuoteText q)
          (if hasImageInParagraph q then extractImageFromParagraph q else none)
          (if hasImageInParagraph q then extractImageAlt q else none)
          (hasImageInParagraph q) true] ∧
      ∀ p ∈ Ps, containsStr (cleanQuoteText q) p = false →
        ∀ ch ∈ segmentContent content mc, containsStr ch.text p = false) := by
  obtain ⟨p0, rest, hP⟩ := List.exists_cons_of_ne_nil hPs
  subst hP
  have h0 : p0 ≠ "" := str_ne_empty_of_strTrim _
    (mem_paragraphsOf_strTrim content p0 (by rw [hps]; simp))
  constructor
  · unfold segmentContent
    rw [hps]
    exact segmentParagraphs_quote_mid mc hmc p0 q rest Rs h0 hplain hq hqh hsum
  · intro hRs
    subst hRs
    have hmain : segmentContent content mc =
        [Chunk.mk none (cleanQuoteText q)
          (if hasImageInParagraph q then extractImageFromParagraph q else none)
          (if hasImageInParagraph q then extractImageAlt q else none)
          (hasImageInParagraph q) true] := by
      unfold segmentContent
      rw [hps]
      exact segmentParagraphs_quote_end mc hmc p0 q rest h0 hplain hq hqh hsum
    refine ⟨hmain, ?_⟩
    intro p hp hnc ch hch
    rw [hmain] at hch
    rw [List.mem_singleton.mp hch]
    exact hnc

theorem claim10_witness :
    (∃ t, segmentContent "alpha beta\n\n> quoted words" 10 =
      Chunk.mk none (cleanQuoteText "> quoted words")
        (if hasImageInParagraph "> quoted words" then
          extractImageFromParagraph "> quoted words" else none)
        (if hasImageInParagraph "> quoted words" then
          extractImageAlt "> quoted words" else none)
        (hasImageInParagraph "> quoted words") true :: t) ∧
    (([] : List String) = [] →
      segmentContent "alpha beta\n\n> quoted words" 10 =
        [Chunk.mk none (cleanQuoteText "> quoted words")
          (if hasImageInParagraph "> quoted words" then
            extractImageFromParagraph "> quoted words" else none)
          (if hasImageInParagraph "> quoted words" then
            extractImageAlt "> quoted words" else none)
          (hasImageInParagraph "> quoted words") true] ∧
      ∀ p ∈ ["alpha beta"], containsStr (cleanQuoteText "> quoted words") p = false →
        ∀ ch ∈ segmentContent "alpha beta\n\n> quoted words" 10,
          containsStr ch.text p = false) :=
  claim10_amended "alpha beta\n\n> quoted words" 10 ["alpha beta"] "> quoted words" []
    (by decide) (by decide) (by decide) (by decide) (by decide) (by norm_num) (by decide)

/-- C10 counterexample: the final paragraph is recognized as a quote and its
addition stays within the 50-word budget, yet the buffered paragraph
`"alpha beta"` is not discarded: because the quote paragraph is also a
heading, the heading flush emits the buffer as its own chunk first. -/
theorem claim10_counterexample :
    isQuote "# x <blockquote>q</blockquote>" = true ∧
    (isHeading "alpha beta" = false ∧ isQuote "alpha beta" = false ∧
      hasImageInParagraph "alpha beta" = false) ∧
    paragraphsOf "alpha beta\n\n# x <blockquote>q</blockquote>" =
      ["alpha beta", "# x <blockquote>q</blockquote>"] ∧
    jsWordsLen "alpha beta" + jsWordsLen "# x <blockquote>q</blockquote>" ≤ 50 ∧
    segmentContent "alpha beta\n\n# x <blockquote>q</blockquote>" 10 =
      [Chunk.mk none "alpha beta" none none false false,
       Chunk.mk (some "x <blockquote>q</blockquote>") "# x q" none none false true] ∧
    ∃ ch ∈ segmentContent "alpha beta\n\n# x <blockquote>q</blockquote>" 10,
      containsStr ch.text "alpha beta" = true := by
  decide

/-- C7: the slide duration is `clamp(3 + wordCount * 0.1, 3, 8)`, lies in
`[3, 8]` for all inputs, and is monotone non-decreasing in word count. -/
theorem claim7_duration :
    (∀ text : String, calculateSlideDuration text =
      min (max ((3 : ℚ) + (jsWordsLen text : ℚ) * (1 / 10)) 3) 8) ∧
    (∀ text : String, 3 ≤ calculateSlideDuration text ∧ calculateSlideDuration text ≤ 8) ∧
    (∀ s t : String, jsWordsLen s ≤ jsWordsLen t →
      calculateSlideDuration s ≤ calculateSlideDuration t) := by
  refine ⟨fun text => rfl, fun text => ⟨?_, ?_⟩, fun s t h => ?_⟩
  · exact le_min (le_max_right _ _) (by norm_num)
  · exact min_le_right _ _
  · unfold calculateSlideDuration
    apply min_le_min _ le_rfl
    apply max_le_max _ le_rfl
    have hc : (jsWordsLen s : ℚ) ≤ (jsWordsLen t : ℚ) := by exact_mod_cast h
    have := mul_le_mul_of_nonneg_right hc (by norm_num : (0 : ℚ) ≤ 1 / 10)
    linarith

theorem claim7_witness :
    calculateSlideDuration "alpha" ≤ calculateSlideDuration "alpha beta" :=
  claim7_duration.2.2 "alpha" "alpha beta" (by decide)

lemma startsWithL_of_append (n1 n2 : List Char) :
    ∀ h : List Char, startsWithL (n1 ++ n2) h = true → startsWithL n1 h = true := by
  induction n1 with
  | nil =>
    intro h _
    rfl
  | cons a as ih =>
    intro h hs
    cases h with
    | nil => simp [startsWithL] at hs
    | cons b bs =>
      simp only [List.cons_append, startsWithL, Bool.and_eq_true] at hs ⊢
      exact ⟨hs.1, ih bs hs.2⟩

lemma containsL_of_append (n1 n2 : List Char) :
    ∀ h : List Char, containsL h (n1 ++ n2) = true → containsL h n1 = true := by
  intro h
  induction h with
  | nil =>
    intro hc
    simp only [containsL, List.isEmpty_eq_true, List.append_eq_nil] at hc
    simp [containsL, hc.1]
  | cons c cs ih =>
    intro hc
    simp only [containsL, Bool.or_eq_true] at hc ⊢
    rcases hc with hc | hc
    · exact Or.inl (startsWithL_of_append n1 n2 _ hc)
    · exact Or.inr (ih hc)

lemma containsStr_amp_of_ampstory (s : String) (h : containsStr s "amp-story" = true) :
    containsStr s "amp" = true := by
  unfold containsStr at h ⊢
  have hd : "amp-story".data = "amp".data ++ "-story".data := by decide
  rw [hd] at h
  exact containsL_of_append _ _ _ h

/-- C8: `validateMarkup` is valid exactly when its error list is empty; a
missing viewport marker is an error (hence invalid, regardless of
warnings); a missing canonical marker with the required structural markers
present is only a warning and the document stays valid. -/
theorem claim8_validate :
    (∀ s : String, (validateAMPHTML s).isValid = true ↔ (validateAMPHTML s).errors = []) ∧
    (∀ s : String, containsStr s "viewport" = false →
      (validateAMPHTML s).isValid = false ∧
      "Missing viewport meta tag" ∈ (validateAMPHTML s).errors) ∧
    (∀ s : String, containsStr s "viewport" = true → containsStr s "amp-story" = true →
      containsStr s "canonical" = false →
      "Missing canonical URL" ∈ (validateAMPHTML s).warnings ∧
      (validateAMPHTML s).isValid = true) := by
  refine ⟨fun s => ?_, fun s hv => ?_, fun s hv ha hc => ?_⟩
  · simp [validateAMPHTML, List.length_eq_zero]
  · constructor
    · simp [validateAMPHTML, hv]
    · simp [validateAMPHTML, hv]
  · have hamp := containsStr_amp_of_ampstory s ha
    constructor
    · simp [validateAMPHTML, hc]
    · simp [validateAMPHTML, hv, ha, hamp]

theorem claim8_witness :
    ((validateAMPHTML "plain text").isValid = false ∧
      "Missing viewport meta tag" ∈ (validateAMPHTML "plain text").errors) ∧
    ("Missing canonical URL" ∈ (validateAMPHTML "amp-story viewport").warnings ∧
      (validateAMPHTML "amp-story viewport").isValid = true) :=
  ⟨claim8_validate.2.1 "plain text" (by decide),
   claim8_validate.2.2 "amp-story viewport" (by decide) (by decide) (by decide)⟩

lemma containsL_nil_needle : ∀ hay : List Char, containsL hay [] = true := by
  intro hay
  cases hay <;> simp [containsL, startsWithL]

lemma containsL_append_right (a b n : List Char) (h : containsL b n = true) :
    containsL (a ++ b) n = true := by
  induction a with
  | nil => exact h
  | cons c cs ih =>
    simp only [List.cons_append, containsL, Bool.or_eq_true]
    exact Or.inr ih

lemma startsWithL_extend (n : List Char) :
    ∀ (h t : List Char), startsWithL n h = true → startsWithL n (h ++ t) = true := by
  induction n with
  | nil =>
    intro _ _ _
    rfl
  | cons a as ih =>
    intro h t hs
    cases h with
    | nil => simp [startsWithL] at hs
    | cons b bs =>
      simp only [List.cons_append, startsWithL, Bool.and_eq_true] at hs ⊢
      exact ⟨hs.1, ih bs t hs.2⟩

lemma containsL_append_left (a b n : List Char) (h : containsL a n = true) :
    containsL (a ++ b) n = true := by
  induction a with
  | nil =>
    simp only [containsL, List.isEmpty_eq_true] at h
    rw [h, List.nil_append]
    exact containsL_nil_needle b
  | cons c cs ih =>
    simp only [List.cons_append, containsL, Bool.or_eq_true] at h ⊢
    rcases h with h | h
    · exact Or.inl (startsWithL_extend n _ b h)
    · exact Or.inr (ih h)

lemma containsStr_append_right (a b n : String) (h : containsStr b n = true) :
    containsStr (a ++ b) n = true := by
  unfold containsStr at h ⊢
  rw [strData_append]
  exact containsL_append_right _ _ _ h

lemma containsStr_append_left (a b n : String) (h : containsStr a n = true) :
    containsStr (a ++ b) n = true := by
  unfold containsStr at h ⊢
  rw [strData_append]
  exact containsL_append_left _ _ _ h

lemma strHeadNW_append (a b : String) (h : strHeadNW a = true) :
    strHeadNW (a ++ b) = true := by
  unfold strHeadNW at h ⊢
  rw [strData_append]
  cases hd : a.data with
  | nil => rw [hd] at h; simp at h
  | cons c cs =>
    rw [hd] at h
    simp only [List.cons_append]
    exact h

lemma strLastNW_append (a b : String) (h : strLastNW b = true) :
    strLastNW (a ++ b) = true := by
  unfold strLastNW at h ⊢
  rw [strData_append, List.reverse_append]
  cases hd : b.data.reverse with
  | nil => rw [hd] at h; simp at h
  | cons c cs =>
    rw [hd] at h
    simp only [List.cons_append]
    exact h

lemma strTrim_cons_nl (s : String) : strTrim ("\n" ++ s) = strTrim s := by
  unfold strTrim wtrim
  rw [strData_append]
  rw [show ("\n" : String).data = ['\n'] from rfl]
  rw [show (['\n'] ++ s.data) = '\n' :: s.data from rfl]
  rw [List.dropWhile_cons]
  rw [if_pos (by decide)]

lemma strTrim_eq_self (s : String) (h1 : strHeadNW s = true) (h2 : strLastNW s = true) :
    strTrim s = s := by
  unfold strTrim wtrim
  have hd1 : s.data.dropWhile ws = s.data := by
    unfold strHeadNW at h1
    cases hd : s.data with
    | nil => rfl
    | cons c cs =>
      rw [hd] at h1
      simp only [Bool.not_eq_true'] at h1
      rw [List.dropWhile_cons, if_neg (by simp [h1])]
  have hd2 : s.data.reverse.dropWhile ws = s.data.reverse := by
    unfold strLastNW at h2
    cases hd : s.data.reverse with
    | nil => rfl
    | cons c cs =>
      rw [hd] at h2
      simp only [Bool.not_eq_true'] at h2
      rw [List.dropWhile_cons, if_neg (by simp [h2])]
  rw [hd1, hd2, List.reverse_reverse]

/-- C9 round-trip: rendering the slides of `generateStory` with any
metadata and validating the result always yields `isValid = true` — the
document shell itself carries every required marker.  `esc` and `nowISO`
stand for the impure `escapeHTML` and `new Date().toISOString()`. -/
theorem claim9_roundtrip (esc : String → String) (nowISO : String)
    (template : StoryTemplate) (postData : WordPressPostData)
    (options : GenerationOptions) (animPick : Nat → Nat) (metadata : StoryMetadata) :
    (validateAMPHTML (generateAMPHTML esc nowISO
      (generateStory template postData options animPick) metadata)).isValid = true := by
  have hdoc : generateAMPHTML esc nowISO (generateStory template postData options animPick)
      metadata = ampStoryDoc esc nowISO (generateStory template postData options animPick)
      metadata := by
    unfold generateAMPHTML
    rw [strTrim_cons_nl]
    apply strTrim_eq_self
    · unfold ampStoryDoc
      repeat apply strHeadNW_append
      decide
    · unfold ampStoryDoc
      apply strLastNW_append
      decide
  rw [hdoc]
  have h1 : containsStr (ampStoryDoc esc nowISO
      (generateStory template postData options animPick) metadata) "⚡" = true := by
    unfold ampStoryDoc
    repeat apply containsStr_append_left
    decide
  have h2 : containsStr (ampStoryDoc esc nowISO
      (generateStory template postData options animPick) metadata) "amp-story" = true := by
    unfold ampStoryDoc
    apply containsStr_append_right
    decide
  have h3 : containsStr (ampStoryDoc esc nowISO
      (generateStory template postData options animPick) metadata) "viewport" = true := by
    unfold ampStoryDoc
    iterate 30 apply containsStr_append_left
    apply containsStr_append_right
    decide
  simp [validateAMPHTML, h1, h2, h3]
